import Mathlib

/-!
# CryEngineQ3Movement: the player component (`Player.h`, `Player.cpp`)

A shallow embedding of `CPlayerComponent`, the Quake-3 style character
controller, and theorems about it.

Conventions of the embedding:

* `float` is an arbitrary linearly ordered field `K` (exact arithmetic).  The
  engine square root is passed to the functions that take a vector length, so
  every definition is computable; theorems that depend on what the square root
  is are stated for `ℝ` and `Real.sqrt`.
* `CEnumFlags<EInputFlag>` (underlying type `uint8`) is a `Nat` below `256`.
* The component is a record; every member function is a function from the
  record (and the call's arguments) to the record afterwards.
* The engine collaborators are fields of the record: the ground contact of the
  character controller, the entity's world transform, and the commands issued
  to the physical body (velocity commands and impulses, newest last).
* `m_lookOrientation` is represented by its yaw/pitch/roll triple, so that
  `CCamera::CreateAnglesYPR` and `CCamera::CreateOrientationYPR` convert there
  and back without change.
-/

set_option linter.unusedSectionVars false

namespace Q3Movement

/-! ## Engine math types -/

/-- Engine type `Vec2`. -/
structure Vec2 (K : Type) where
  x : K
  y : K
deriving DecidableEq, Repr

/-- Engine type `Vec3`. -/
structure Vec3 (K : Type) where
  x : K
  y : K
  z : K
deriving DecidableEq, Repr

/-- Engine type `Ang3`, used as yaw (`x`), pitch (`y`), roll (`z`). -/
structure Ang3 (K : Type) where
  x : K
  y : K
  z : K
deriving DecidableEq, Repr

/-- Engine type `Matrix33`, row by row. -/
structure Matrix33 (K : Type) where
  m00 : K
  m01 : K
  m02 : K
  m10 : K
  m11 : K
  m12 : K
  m20 : K
  m21 : K
  m22 : K
deriving DecidableEq, Repr

/-- Engine type `Matrix34`: a rotation part and a translation. -/
structure Matrix34 (K : Type) where
  rot : Matrix33 K
  t : Vec3 K
deriving DecidableEq, Repr

section Math

variable {K : Type} [LinearOrderedField K]

/-- The engine constant `ZERO` at type `Vec2`. -/
def Vec2.ZERO : Vec2 K := ⟨0, 0⟩

/-- The engine constant `ZERO` at type `Vec3`. -/
def Vec3.ZERO : Vec3 K := ⟨0, 0, 0⟩

/-- The engine constant `IDENTITY` at the orientation type: yaw, pitch and roll 0. -/
def Ang3.IDENTITY : Ang3 K := ⟨0, 0, 0⟩

/-- The engine constant `IDENTITY` at type `Matrix33`. -/
def Matrix33.IDENTITY : Matrix33 K := ⟨1, 0, 0, 0, 1, 0, 0, 0, 1⟩

/-- Engine `Vec3::dot`. -/
def Vec3.dot (a b : Vec3 K) : K := a.x * b.x + a.y * b.y + a.z * b.z

/-- Engine `Vec3::GetLength`: the square root of the sum of squares. -/
def Vec3.GetLength (sqrt : K → K) (v : Vec3 K) : K :=
  sqrt (v.x * v.x + v.y * v.y + v.z * v.z)

/-- Engine `Vec3::Normalize`: every component is multiplied by the inverse of
the length; the engine's version is safe, a zero vector stays the zero vector. -/
def Vec3.Normalize (sqrt : K → K) (v : Vec3 K) : Vec3 K :=
  let fInvLen := 1 / sqrt (v.x * v.x + v.y * v.y + v.z * v.z)
  ⟨v.x * fInvLen, v.y * fInvLen, v.z * fInvLen⟩

/-- Engine `Vec3 * float`. -/
def Vec3.scale (v : Vec3 K) (f : K) : Vec3 K := ⟨v.x * f, v.y * f, v.z * f⟩

/-- The world rotation applied to a vector (`GetWorldRotation() * wishdir`). -/
def Matrix33.mulVec (m : Matrix33 K) (v : Vec3 K) : Vec3 K :=
  ⟨m.m00 * v.x + m.m01 * v.y + m.m02 * v.z,
   m.m10 * v.x + m.m11 * v.y + m.m12 * v.z,
   m.m20 * v.x + m.m21 * v.y + m.m22 * v.z⟩

/-- Engine `Vec2::IsEquivalent(v, epsilon)`: component-wise within `epsilon`. -/
def Vec2.IsEquivalent (a b : Vec2 K) (epsilon : K) : Bool :=
  decide (|a.x - b.x| ≤ epsilon) && decide (|a.y - b.y| ≤ epsilon)

/-- Engine macro `CLAMP(X, mn, mx)`. -/
def CLAMP (X mn mx : K) : K := if X < mn then mn else if X < mx then X else mx

/-- Engine `CCamera::CreateAnglesYPR` on the yaw/pitch/roll representation. -/
def CreateAnglesYPR (q : Ang3 K) : Ang3 K := q

/-- Engine `CCamera::CreateOrientationYPR` on the yaw/pitch/roll representation. -/
def CreateOrientationYPR (ypr : Ang3 K) : Ang3 K := ypr

end Math

/-! ## `Player.h` -/

/-- The `struct Cmd` of the header. -/
structure Cmd (K : Type) where
  forwardMove : K
  rightMove : K
  upMove : K
deriving DecidableEq, Repr

/-- The `enum class EInputFlagType`. -/
inductive EInputFlagType where
  | Hold
  | Toggle
deriving DecidableEq, Repr

namespace EInputFlag

/-- Flag `MoveLeft = 1 << 0`. -/
def MoveLeft : Nat := 1 <<< 0
/-- Flag `MoveRight = 1 << 1`. -/
def MoveRight : Nat := 1 <<< 1
/-- Flag `MoveForward = 1 << 2`. -/
def MoveForward : Nat := 1 <<< 2
/-- Flag `MoveBack = 1 << 3`. -/
def MoveBack : Nat := 1 <<< 3
/-- Flag `Jump = 1 << 4`. -/
def Jump : Nat := 1 <<< 4

end EInputFlag

/-- Engine `EActionActivationMode::eAAM_OnPress`. -/
def eAAM_OnPress : Nat := 1
/-- Engine `EActionActivationMode::eAAM_OnRelease`. -/
def eAAM_OnRelease : Nat := 2

/-- The `CEnumFlags::operator~` on the underlying `uint8`. -/
def flagsNot (flags : Nat) : Nat := 255 ^^^ (flags % 256)

/-- The `SAMPLES_COUNT` of both filters of the component. -/
def SAMPLES_COUNT : Nat := 10

/-- The class template `MovingAverage<T, SAMPLES_COUNT>`. -/
structure MovingAverage (T : Type) where
  m_values : List T
  m_cursor : Nat
  m_accumulator : T
deriving DecidableEq, Repr

namespace MovingAverage

variable {T : Type}

/-- The constructor: zeroed samples, cursor at `SAMPLES_COUNT`, zero sum. -/
def new [Zero T] : MovingAverage T :=
  { m_values := List.replicate SAMPLES_COUNT 0
    m_cursor := SAMPLES_COUNT
    m_accumulator := 0 }

/-- Member `MovingAverage::Push`. -/
def Push [Zero T] [Add T] [Sub T] (f : MovingAverage T) (value : T) : MovingAverage T :=
  if f.m_cursor = SAMPLES_COUNT then
    let values := List.replicate SAMPLES_COUNT value
    { m_values := values
      m_cursor := 0
      m_accumulator := values.foldl (fun acc v => acc + v) 0 }
  else
    let acc := f.m_accumulator - f.m_values.getD f.m_cursor 0
    let values := f.m_values.set f.m_cursor value
    { m_values := values
      m_cursor := (f.m_cursor + 1) % SAMPLES_COUNT
      m_accumulator := acc + values.getD f.m_cursor 0 }

/-- Member `MovingAverage::Get`. -/
def Get [Div T] [NatCast T] (f : MovingAverage T) : T :=
  f.m_accumulator / (SAMPLES_COUNT : T)

/-- Member `MovingAverage::Reset`. -/
def Reset (f : MovingAverage T) : MovingAverage T :=
  { f with m_cursor := SAMPLES_COUNT }

/-- The filter after the values are pushed one after the other. -/
def pushAll [Zero T] [Add T] [Sub T] (f : MovingAverage T) (values : List T) : MovingAverage T :=
  values.foldl Push f

/-- The last `SAMPLES_COUNT` of the values. -/
def lastSamples (values : List T) : List T :=
  values.drop (values.length - SAMPLES_COUNT)

/-- The ring buffer holds the window `w` (oldest sample first): the cursor stands on the
oldest sample, the samples after the cursor followed by those before it are the rest of
the window, and the accumulator is the sum of the window. -/
def HoldsWindow [Add T] [Zero T] (f : MovingAverage T) (w : List T) : Prop :=
  ∃ (a : List T) (x : T) (b : List T),
    f.m_values = a ++ x :: b ∧ f.m_cursor = a.length ∧ w = x :: (b ++ a) ∧
    w.length = SAMPLES_COUNT ∧ f.m_accumulator = w.sum

/-- The window after one more sample: the oldest sample leaves, the new one enters. -/
def slide (w : List T) (values : List T) : List T :=
  values.foldl (fun w v => w.tail ++ [v]) w

end MovingAverage

/-- The `class CPlayerComponent`: its members, and its engine collaborators. -/
structure CPlayerComponent (K : Type) where
  /-- Flag `ENTITY_FLAG_LOCAL_PLAYER` of the entity, read by `IsLocalClient`. -/
  isLocalClient : Bool
  /-- Result of `m_pCharacterController->IsOnGround()`. -/
  onGround : Bool
  /-- Result of `GetEntity()->GetWorldRotation()`. -/
  worldRotation : Matrix33 K
  /-- Result of `GetEntity()->GetWorldPos()`. -/
  worldPos : Vec3 K
  /-- Arguments of `m_pCharacterController->SetVelocity`, newest last. -/
  velocityCmds : List (Vec3 K)
  /-- The `impulse.z` of every `pe_action_impulse` passed to the physical body, newest last. -/
  impulses : List K
  /-- The yaw/pitch/roll handed to the camera component by `UpdateCamera`. -/
  cameraYPR : Ang3 K
  /-- Whether `NetMarkAspectsDirty(InputAspect)` has been called. -/
  inputAspectDirty : Bool
  m_isAlive : Bool
  m_inputFlags : Nat
  m_mouseDeltaRotation : Vec2 K
  m_mouseDeltaSmoothingFilter : MovingAverage (Vec2 K)
  m_TiltAngle : K
  m_bSliding : Bool
  m_frametime : K
  m_moveSpeed : K
  gravity : K
  friction : K
  runAcceleration : K
  runDeacceleration : K
  airAcceleration : K
  airDecceleration : K
  airControl : K
  sideStrafeAcceleration : K
  sideStrafeSpeed : K
  wishJump : Bool
  playerFriction : K
  moveDirectionNorm : Vec3 K
  playerVelocity : Vec3 K
  _cmd : Cmd K
  m_rotationSpeed : K
  /-- Here `FRAGMENT_ID_INVALID` is `none`. -/
  m_activeFragmentId : Option Nat
  m_lookOrientation : Ang3 K
  m_horizontalAngularVelocity : K
  m_averagedHorizontalAngularVelocity : MovingAverage K

/-- The macro `MOUSE_DELTA_TRESHOLD`. -/
def MOUSE_DELTA_TRESHOLD {K : Type} [LinearOrderedField K] : K := 1 / 10000

namespace CPlayerComponent

variable {K : Type} [LinearOrderedField K]

/-- The in-class member initialisers of `Player.h`; the members the header
leaves uninitialised, and the collaborators, start at zero, false or empty. -/
def new : CPlayerComponent K :=
  { isLocalClient := false
    onGround := false
    worldRotation := Matrix33.IDENTITY
    worldPos := Vec3.ZERO
    velocityCmds := []
    impulses := []
    cameraYPR := Ang3.IDENTITY
    inputAspectDirty := false
    m_isAlive := false
    m_inputFlags := 0
    m_mouseDeltaRotation := Vec2.ZERO
    m_mouseDeltaSmoothingFilter :=
      { m_values := List.replicate SAMPLES_COUNT Vec2.ZERO
        m_cursor := SAMPLES_COUNT
        m_accumulator := Vec2.ZERO }
    m_TiltAngle := 26 / 100
    m_bSliding := false
    m_frametime := 0
    m_moveSpeed := 1000
    gravity := 2000
    friction := 6
    runAcceleration := 140
    runDeacceleration := 600
    airAcceleration := 3 / 10
    airDecceleration := 3 / 10
    airControl := 1
    sideStrafeAcceleration := 5
    sideStrafeSpeed := 10
    wishJump := false
    playerFriction := 0
    moveDirectionNorm := Vec3.ZERO
    playerVelocity := Vec3.ZERO
    _cmd := ⟨0, 0, 0⟩
    m_rotationSpeed := 2 / 1000
    m_activeFragmentId := none
    m_lookOrientation := Ang3.IDENTITY
    m_horizontalAngularVelocity := 0
    m_averagedHorizontalAngularVelocity := MovingAverage.new }

/-- The test `m_inputFlags & flag` as a condition. -/
def hasFlag (s : CPlayerComponent K) (flag : Nat) : Bool := s.m_inputFlags &&& flag != 0

/-- Member `CPlayerComponent::SetMovementDir`; its two `CLAMP` statements are taken as
assignments of the clamped value. -/
def SetMovementDir (s : CPlayerComponent K) : CPlayerComponent K :=
  let rightMove : K := 0
  let forwardMove : K := 0
  let rightMove := if s.hasFlag EInputFlag.MoveLeft then rightMove - 1 else rightMove
  let rightMove := if s.hasFlag EInputFlag.MoveRight then rightMove + 1 else rightMove
  let forwardMove := if s.hasFlag EInputFlag.MoveForward then forwardMove + 1 else forwardMove
  let forwardMove := if s.hasFlag EInputFlag.MoveBack then forwardMove - 1 else forwardMove
  let forwardMove := CLAMP forwardMove (-1) 1
  let rightMove := CLAMP rightMove (-1) 1
  { s with _cmd := { s._cmd with forwardMove := forwardMove, rightMove := rightMove } }

/-- Member `CPlayerComponent::QueueJump`: its body is commented out. -/
def QueueJump (s : CPlayerComponent K) : CPlayerComponent K := s

/-- Member `CPlayerComponent::Accelerate`. -/
def Accelerate (s : CPlayerComponent K) (wishdir : Vec3 K) (wishspeed accel : K) :
    CPlayerComponent K :=
  let currentspeed := s.playerVelocity.dot wishdir
  let addspeed := wishspeed - currentspeed
  if addspeed ≤ 0 then s
  else
    let accelspeed := accel * s.m_frametime * wishspeed
    let accelspeed := if accelspeed > addspeed then addspeed else accelspeed
    { s with playerVelocity :=
        { s.playerVelocity with
          x := s.playerVelocity.x + accelspeed * wishdir.x
          y := s.playerVelocity.y + accelspeed * wishdir.y } }

/-- Member `CPlayerComponent::AirControl`. -/
def AirControl (sqrt : K → K) (s : CPlayerComponent K) (wishdir : Vec3 K) (wishspeed : K) :
    CPlayerComponent K :=
  if s._cmd.forwardMove = 0 ∨ wishspeed = 0 then s
  else
    let zspeed := s.playerVelocity.z
    let v : Vec3 K := { s.playerVelocity with z := 0 }
    let speed := v.GetLength sqrt
    let v := v.Normalize sqrt
    let dot := v.dot wishdir
    let k : K := 32
    let k := k * (s.airControl * dot * dot * s.m_frametime)
    let s := { s with playerVelocity := v }
    let s :=
      if dot > 0 then
        let v : Vec3 K :=
          ⟨v.x * speed + wishdir.x * k, v.y * speed + wishdir.y * k, v.z * speed + wishdir.z * k⟩
        let v := v.Normalize sqrt
        { s with playerVelocity := v, moveDirectionNorm := v }
      else s
    { s with playerVelocity :=
        ⟨s.playerVelocity.x * speed, s.playerVelocity.y * speed, zspeed⟩ }

/-- Member `CPlayerComponent::ApplyFriction`. -/
def ApplyFriction (sqrt : K → K) (s : CPlayerComponent K) (t : K) : CPlayerComponent K :=
  let vec : Vec3 K := { s.playerVelocity with y := 0 }
  let speed := vec.GetLength sqrt
  let drop : K := 0
  let drop :=
    if s.onGround then
      let control := if speed < s.runDeacceleration then s.runDeacceleration else speed
      control * s.friction * s.m_frametime * t
    else drop
  let newspeed := speed - drop
  let playerFriction := newspeed
  let newspeed := if newspeed < 0 then 0 else newspeed
  let newspeed := if speed > 0 then newspeed / speed else newspeed
  { s with
    playerFriction := playerFriction
    playerVelocity :=
      { s.playerVelocity with
        x := s.playerVelocity.x * newspeed
        y := s.playerVelocity.y * newspeed } }

/-- Member `CPlayerComponent::GroundMove`. -/
def GroundMove (sqrt : K → K) (s : CPlayerComponent K) : CPlayerComponent K :=
  let s := if !s.wishJump then ApplyFriction sqrt s 1 else ApplyFriction sqrt s 0
  let s := SetMovementDir s
  let wishdir : Vec3 K := ⟨s._cmd.rightMove, s._cmd.forwardMove, 0⟩
  let wishdir := s.worldRotation.mulVec wishdir
  let wishdir := wishdir.Normalize sqrt
  let s := { s with moveDirectionNorm := wishdir }
  let wishspeed := wishdir.GetLength sqrt
  let wishspeed := wishspeed * s.m_moveSpeed
  let s := Accelerate s wishdir wishspeed s.runAcceleration
  let s := { s with playerVelocity := { s.playerVelocity with z := 0 } }
  let s := if s.wishJump then { s with impulses := s.impulses ++ [800], wishJump := false } else s
  { s with velocityCmds := s.velocityCmds ++ [s.playerVelocity.scale s.m_frametime] }

/-- Member `CPlayerComponent::AirMove`. -/
def AirMove (sqrt : K → K) (s : CPlayerComponent K) : CPlayerComponent K :=
  let s := SetMovementDir s
  let wishdir : Vec3 K := ⟨s._cmd.rightMove, s._cmd.forwardMove, 0⟩
  let wishdir := s.worldRotation.mulVec wishdir
  let wishspeed := wishdir.GetLength sqrt
  let wishspeed := wishspeed * s.m_moveSpeed
  let wishdir := wishdir.Normalize sqrt
  let s := { s with moveDirectionNorm := wishdir }
  let wishspeed2 := wishspeed
  let accel := if s.playerVelocity.dot wishdir < 0 then s.airDecceleration else s.airAcceleration
  let strafe : Bool := decide (s._cmd.forwardMove = 0) && decide (s._cmd.rightMove ≠ 0)
  let wishspeed :=
    if strafe then (if wishspeed > s.sideStrafeSpeed then s.sideStrafeSpeed else wishspeed)
    else wishspeed
  let accel := if strafe then s.sideStrafeAcceleration else accel
  let s := Accelerate s wishdir wishspeed accel
  let s := if s.airControl > 0 then AirControl sqrt s wishdir wishspeed2 else s
  let s := { s with playerVelocity :=
    { s.playerVelocity with z := s.playerVelocity.z - s.gravity * s.m_frametime } }
  { s with velocityCmds := s.velocityCmds ++ [s.playerVelocity.scale s.m_frametime] }

/-- Member `CPlayerComponent::UpdateLookDirectionRequest`; the division by `frameTime` is
the division of the field `K`, which gives 0 for a zero frame time. -/
def UpdateLookDirectionRequest (s : CPlayerComponent K) (frameTime : K) : CPlayerComponent K :=
  let rotationSpeed : K := 2 / 1000
  let rotationLimitsMinPitch : K := -(84 / 100)
  let rotationLimitsMaxPitch : K := 15 / 10
  let s := { s with
    m_horizontalAngularVelocity := (s.m_mouseDeltaRotation.x * rotationSpeed) / frameTime }
  let s := { s with
    m_averagedHorizontalAngularVelocity :=
      s.m_averagedHorizontalAngularVelocity.Push s.m_horizontalAngularVelocity }
  if s.m_mouseDeltaRotation.IsEquivalent Vec2.ZERO MOUSE_DELTA_TRESHOLD then s
  else
    let ypr := CreateAnglesYPR s.m_lookOrientation
    let ypr := { ypr with x := ypr.x + s.m_mouseDeltaRotation.x * rotationSpeed }
    let ypr := { ypr with
      y := CLAMP (ypr.y + s.m_mouseDeltaRotation.y * rotationSpeed)
        rotationLimitsMinPitch rotationLimitsMaxPitch }
    let ypr := { ypr with z := 0 }
    { s with
      m_lookOrientation := CreateOrientationYPR ypr
      m_mouseDeltaRotation := Vec2.ZERO }

/-- Member `CPlayerComponent::UpdateLookRotationZ`; `orient` is the engine's conversion of
yaw/pitch/roll to the rotation the entity is given. -/
def UpdateLookRotationZ (orient : Ang3 K → Matrix33 K) (s : CPlayerComponent K)
    (_frameTime : K) : CPlayerComponent K :=
  let ypr := CreateAnglesYPR s.m_lookOrientation
  let ypr := { ypr with y := 0 }
  let ypr := { ypr with z := 0 }
  { s with worldRotation := orient (CreateOrientationYPR ypr) }

/-- Member `CPlayerComponent::UpdateCamera`. -/
def UpdateCamera (s : CPlayerComponent K) (_frameTime : K) : CPlayerComponent K :=
  let ypr := CreateAnglesYPR s.m_lookOrientation
  let ypr := { ypr with x := ypr.x + s.m_mouseDeltaRotation.x * s.m_rotationSpeed }
  let rotationLimitsMinPitch : K := -(84 / 100)
  let rotationLimitsMaxPitch : K := 15 / 10
  let ypr := { ypr with
    y := CLAMP (ypr.y + s.m_mouseDeltaRotation.y * s.m_rotationSpeed)
      rotationLimitsMinPitch rotationLimitsMaxPitch }
  let ypr := if s.m_bSliding then { ypr with z := s.m_TiltAngle } else { ypr with z := 0 }
  let s := { s with m_lookOrientation := CreateOrientationYPR ypr }
  let s := { s with m_mouseDeltaRotation := Vec2.ZERO }
  let ypr := { ypr with x := 0 }
  { s with cameraYPR := ypr }

/-- Member `CPlayerComponent::Update`. -/
def Update (sqrt : K → K) (orient : Ang3 K → Matrix33 K) (s : CPlayerComponent K)
    (frameTime : K) : CPlayerComponent K :=
  let s := { s with m_frametime := frameTime }
  let s := UpdateLookDirectionRequest s frameTime
  let s := UpdateLookRotationZ orient s frameTime
  let s := if s.isLocalClient then UpdateCamera s frameTime else s
  let s := QueueJump s
  if s.onGround then GroundMove sqrt s else AirMove sqrt s

/-- Member `CPlayerComponent::Revive`; `isEditor` is `gEnv->IsEditor()`. -/
def Revive (isEditor : Bool) (s : CPlayerComponent K) (transform : Matrix34 K) :
    CPlayerComponent K :=
  let s := { s with m_isAlive := true }
  let s := if !isEditor then { s with worldRotation := transform.rot, worldPos := transform.t }
    else s
  let s := { s with m_inputFlags := 0 }
  let s := { s with inputAspectDirty := true }
  let s := { s with m_mouseDeltaRotation := Vec2.ZERO }
  let s := { s with m_lookOrientation := Ang3.IDENTITY }
  let s := { s with m_mouseDeltaSmoothingFilter := s.m_mouseDeltaSmoothingFilter.Reset }
  let s := { s with m_activeFragmentId := none }
  let s := { s with m_horizontalAngularVelocity := 0 }
  { s with m_averagedHorizontalAngularVelocity := s.m_averagedHorizontalAngularVelocity.Reset }

/-- Member `CPlayerComponent::HandleInputFlagChange`. -/
def HandleInputFlagChange (s : CPlayerComponent K) (flags : Nat) (activationMode : Nat)
    (type : EInputFlagType) : CPlayerComponent K :=
  let s :=
    match type with
    | EInputFlagType.Hold =>
      if activationMode = eAAM_OnRelease then
        { s with m_inputFlags := s.m_inputFlags &&& flagsNot flags }
      else
        { s with m_inputFlags := s.m_inputFlags ||| flags }
    | EInputFlagType.Toggle =>
      if activationMode = eAAM_OnRelease then
        { s with m_inputFlags := s.m_inputFlags ^^^ flags }
      else s
  if s.isLocalClient then { s with inputAspectDirty := true } else s

/-- The actions registered by `CPlayerComponent::InitializeLocalPlayer`, each with the
arguments its callback receives. -/
inductive Action (K : Type) where
  | moveleft (activationMode : Nat)
  | moveright (activationMode : Nat)
  | moveforward (activationMode : Nat)
  | moveback (activationMode : Nat)
  | mouse_rotateyaw (value : K)
  | mouse_rotatepitch (value : K)
  | jump (activationMode : Nat)

/-- Whether an action is a press or a release of the jump action. -/
def Action.isJumpEdge : Action K → Bool
  | Action.jump m => decide (m = eAAM_OnPress) || decide (m = eAAM_OnRelease)
  | _ => false

/-- The callbacks registered by `CPlayerComponent::InitializeLocalPlayer`. -/
def onAction (s : CPlayerComponent K) : Action K → CPlayerComponent K
  | Action.moveleft m => HandleInputFlagChange s EInputFlag.MoveLeft m EInputFlagType.Hold
  | Action.moveright m => HandleInputFlagChange s EInputFlag.MoveRight m EInputFlagType.Hold
  | Action.moveforward m => HandleInputFlagChange s EInputFlag.MoveForward m EInputFlagType.Hold
  | Action.moveback m => HandleInputFlagChange s EInputFlag.MoveBack m EInputFlagType.Hold
  | Action.mouse_rotateyaw value =>
    { s with m_mouseDeltaRotation := { s.m_mouseDeltaRotation with
        x := s.m_mouseDeltaRotation.x - value } }
  | Action.mouse_rotatepitch value =>
    { s with m_mouseDeltaRotation := { s.m_mouseDeltaRotation with
        y := s.m_mouseDeltaRotation.y - value } }
  | Action.jump m =>
    if m = eAAM_OnPress then { s with wishJump := true }
    else if m = eAAM_OnRelease then { s with wishJump := false }
    else s

/-- One frame as the component sees it: the input callbacks dispatched since the last
update, the ground contact the character controller reports, and the frame time. -/
structure Frame (K : Type) where
  actions : List (Action K)
  onGround : Bool
  frameTime : K

/-- The component after one frame: the callbacks run in order, then `Update`. -/
def runFrame (sqrt : K → K) (orient : Ang3 K → Matrix33 K) (s : CPlayerComponent K)
    (f : Frame K) : CPlayerComponent K :=
  let s := f.actions.foldl onAction s
  Update sqrt orient { s with onGround := f.onGround } f.frameTime

/-- The component after the frames, run one after the other. -/
def runFrames (sqrt : K → K) (orient : Ang3 K → Matrix33 K) (s : CPlayerComponent K)
    (fs : List (Frame K)) : CPlayerComponent K :=
  fs.foldl (runFrame sqrt orient) s

/-- The component in the middle of `Update`, after its look part (`m_frametime`,
`UpdateLookDirectionRequest`, `UpdateLookRotationZ`, `UpdateCamera`) and before its
movement part. -/
def updateLook (orient : Ang3 K → Matrix33 K) (s : CPlayerComponent K) (frameTime : K) :
    CPlayerComponent K :=
  let s := { s with m_frametime := frameTime }
  let s := UpdateLookDirectionRequest s frameTime
  let s := UpdateLookRotationZ orient s frameTime
  if s.isLocalClient then UpdateCamera s frameTime else s

/-- Whether an action is one of the two mouse actions. -/
def Action.isMouse : Action K → Bool
  | Action.mouse_rotateyaw _ => true
  | Action.mouse_rotatepitch _ => true
  | _ => false

/-- Whether the pitch of the look orientation is within the limits `[-0.84, 1.5]`. -/
def pitchInLimits (s : CPlayerComponent K) : Prop :=
  -(84 / 100) ≤ s.m_lookOrientation.y ∧ s.m_lookOrientation.y ≤ 15 / 10

/-- The speed in the horizontal plane, `sqrt(vx^2 + vy^2)`. -/
def horizontalSpeed (sqrt : K → K) (s : CPlayerComponent K) : K :=
  sqrt (s.playerVelocity.x * s.playerVelocity.x + s.playerVelocity.y * s.playerVelocity.y)

/-- The mask with exactly the given flags set. -/
def flagMask (left right forward back jump : Bool) : Nat :=
  (if left then EInputFlag.MoveLeft else 0) ||| (if right then EInputFlag.MoveRight else 0) |||
  (if forward then EInputFlag.MoveForward else 0) ||| (if back then EInputFlag.MoveBack else 0) |||
  (if jump then EInputFlag.Jump else 0)

/-- The axis value of two opposite keys: 0 when both or neither is held, otherwise
`+1` for the positive key and `-1` for the negative key. -/
def axisValue (positive negative : Bool) : K :=
  if positive = negative then 0 else if positive then 1 else -1

/-- The factor by which `ApplyFriction` scales `playerVelocity.x` and `playerVelocity.y`:
the final value of its local `newspeed`. -/
def frictionScale (sqrt : K → K) (s : CPlayerComponent K) (t : K) : K :=
  let vec : Vec3 K := { s.playerVelocity with y := 0 }
  let speed := vec.GetLength sqrt
  let drop : K := 0
  let drop :=
    if s.onGround then
      let control := if speed < s.runDeacceleration then s.runDeacceleration else speed
      control * s.friction * s.m_frametime * t
    else drop
  let newspeed := speed - drop
  let newspeed := if newspeed < 0 then 0 else newspeed
  if speed > 0 then newspeed / speed else newspeed

/-- No movement flag is set and no jump is queued, and the friction constants have
their default values (`friction = 6`, `runDeacceleration = 600`). -/
def Idle (s : CPlayerComponent K) : Prop :=
  s.hasFlag EInputFlag.MoveLeft = false ∧ s.hasFlag EInputFlag.MoveRight = false ∧
  s.hasFlag EInputFlag.MoveForward = false ∧ s.hasFlag EInputFlag.MoveBack = false ∧
  s.wishJump = false ∧ s.friction = 6 ∧ s.runDeacceleration = 600

/-- A grounded frame with a positive frame time in which only the mouse moved. -/
def Frame.IdleGrounded (f : Frame K) : Prop :=
  f.onGround = true ∧ 0 < f.frameTime ∧ ∀ a ∈ f.actions, a.isMouse = true

/-- A grounded frame in which the jump action fired neither a press nor a release. -/
def Frame.GroundedNoJump (f : Frame K) : Prop :=
  f.onGround = true ∧ ∀ a ∈ f.actions, a.isJumpEdge = false

/-- The speed `b` after a frame against the speed `a` before it: strictly smaller when
`a` was positive, zero when `a` was zero, and never negative. -/
def SlowsDown (a b : K) : Prop :=
  (0 < a → b < a) ∧ (a = 0 → b = 0) ∧ 0 ≤ b

/-- A player standing still on the ground, alive, with the header's constants and a
frame time of 0.016. -/
def standing : CPlayerComponent K :=
  { (new : CPlayerComponent K) with onGround := true, m_isAlive := true, m_frametime := 16 / 1000 }

/-- The standing player sliding over the ground at velocity `(3, 4, 0)`. -/
def sliding : CPlayerComponent K :=
  { (standing : CPlayerComponent K) with playerVelocity := ⟨3, 4, 0⟩ }

/-- The standing player with exactly `MoveForward` held. -/
def pressingForward : CPlayerComponent K :=
  { (standing : CPlayerComponent K) with m_inputFlags := EInputFlag.MoveForward }

/-- The standing player with a jump queued. -/
def jumpQueued : CPlayerComponent K :=
  { (standing : CPlayerComponent K) with wishJump := true }

/-- A grounded frame of 0.01 s without any input callback. -/
def quietFrame : Frame K := ⟨[], true, 1 / 100⟩

/-- A grounded frame of 0.02 s in which the mouse moved horizontally. -/
def mouseFrame : Frame K := ⟨[Action.mouse_rotateyaw 1], true, 1 / 50⟩

/-- A grounded frame of 0.016 s in which the forward key was pressed. -/
def forwardFrame : Frame K := ⟨[Action.moveforward eAAM_OnPress], true, 16 / 1000⟩

/-- The engine's `EEntityAspects`, as far as the component tells them apart. -/
inductive EEntityAspects where
  | eEA_GameClientD
  | other
deriving DecidableEq, Repr

/-- The constant `InputAspect = eEA_GameClientD` of the header. -/
def InputAspect : EEntityAspects := EEntityAspects.eEA_GameClientD

/-- The serializer `TSerialize` as `NetSerialize` uses it: its direction and, for reading,
the values the stream delivers for the flag mask (policy `ui8`) and the orientation. -/
structure TSerialize (K : Type) where
  isReading : Bool
  inputFlags : Nat
  lookOrientation : Ang3 K

/-- Member `CPlayerComponent::NetSerialize` (it always returns `true`); `ser.Value` stores
the stream's value in the member when reading and leaves the member alone when writing. -/
def NetSerialize (s : CPlayerComponent K) (ser : TSerialize K) (aspect : EEntityAspects) :
    CPlayerComponent K :=
  if aspect = InputAspect then
    let prevInputFlags := s.m_inputFlags
    let s := if ser.isReading then { s with m_inputFlags := ser.inputFlags } else s
    let s :=
      if ser.isReading then
        let changedKeys := prevInputFlags ^^^ s.m_inputFlags
        let pressedKeys := changedKeys &&& prevInputFlags
        let s :=
          if pressedKeys ≠ 0 then
            HandleInputFlagChange s pressedKeys eAAM_OnPress EInputFlagType.Hold
          else s
        let releasedKeys := changedKeys &&& prevInputFlags
        if releasedKeys ≠ 0 then
          HandleInputFlagChange s pressedKeys eAAM_OnRelease EInputFlagType.Hold
        else s
      else s
    if ser.isReading then { s with m_lookOrientation := ser.lookOrientation } else s
  else s

/-- The entity events of `GetEventMask`, each with the parameter `ProcessEvent` reads. -/
inductive SEntityEvent (K : Type) where
  | BecomeLocalPlayer
  | Update (fParam0 : K)
  | Reset (nParam0 : Int)

/-- Member `CPlayerComponent::InitializeLocalPlayer`: it creates the camera, audio and
input components and registers the callbacks of `onAction`; no member modelled here
changes. -/
def InitializeLocalPlayer (s : CPlayerComponent K) : CPlayerComponent K := s

/-- Member `CPlayerComponent::ProcessEvent`. -/
def ProcessEvent (sqrt : K → K) (orient : Ang3 K → Matrix33 K) (s : CPlayerComponent K) :
    SEntityEvent K → CPlayerComponent K
  | SEntityEvent.BecomeLocalPlayer => InitializeLocalPlayer s
  | SEntityEvent.Update frameTime =>
    if !s.m_isAlive then s else Update sqrt orient s frameTime
  | SEntityEvent.Reset nParam0 => { s with m_isAlive := decide (nParam0 ≠ 0) }

/-- The wish direction in world space before it is normalized, in `GroundMove` and in
`AirMove`: `GetWorldRotation() * Vec3(rightMove, forwardMove, 0)`. -/
def wishVector (s : CPlayerComponent K) : Vec3 K :=
  let s := SetMovementDir s
  s.worldRotation.mulVec ⟨s._cmd.rightMove, s._cmd.forwardMove, 0⟩

/-- The local `wishspeed` of `GroundMove`, as passed to `Accelerate`. -/
def groundWishSpeed (sqrt : K → K) (s : CPlayerComponent K) : K :=
  let wishdir := wishVector s
  let wishdir := wishdir.Normalize sqrt
  let wishspeed := wishdir.GetLength sqrt
  wishspeed * s.m_moveSpeed

/-- The local `wishspeed2` of `AirMove` (the local `wishspeed` before the strafing case),
as passed to `AirControl`. -/
def airWishSpeed2 (sqrt : K → K) (s : CPlayerComponent K) : K :=
  let wishdir := wishVector s
  let wishspeed := wishdir.GetLength sqrt
  wishspeed * s.m_moveSpeed

/-- The condition `_cmd.forwardMove == 0 && _cmd.rightMove != 0` of `AirMove`. -/
def airStrafing (s : CPlayerComponent K) : Bool :=
  decide ((SetMovementDir s)._cmd.forwardMove = 0) && decide ((SetMovementDir s)._cmd.rightMove ≠ 0)

/-- The local `wishspeed` of `AirMove`, as passed to `Accelerate`. -/
def airWishSpeed (sqrt : K → K) (s : CPlayerComponent K) : K :=
  if airStrafing s then
    (if airWishSpeed2 sqrt s > s.sideStrafeSpeed then s.sideStrafeSpeed else airWishSpeed2 sqrt s)
  else airWishSpeed2 sqrt s

/-- The local `accel` of `AirMove`, as passed to `Accelerate`. -/
def airAccel (sqrt : K → K) (s : CPlayerComponent K) : K :=
  if airStrafing s then s.sideStrafeAcceleration
  else if s.playerVelocity.dot ((wishVector s).Normalize sqrt) < 0 then s.airDecceleration
  else s.airAcceleration

/-- A player running straight ahead at the velocity `(0, 1000, 0)` that one `GroundMove`
of `pressingForward` produces. -/
def runningForward : CPlayerComponent K :=
  { (pressingForward : CPlayerComponent K) with playerVelocity := ⟨0, 1000, 0⟩ }

/-- The standing player after the mouse moved by one unit to the left. -/
def mouseMoved : CPlayerComponent K :=
  { (standing : CPlayerComponent K) with m_mouseDeltaRotation := ⟨1, 0⟩ }

/-- The local `speed` of `AirControl`: the length of the velocity without its `z`. -/
def airControlSpeed (sqrt : K → K) (s : CPlayerComponent K) : K :=
  Vec3.GetLength sqrt { s.playerVelocity with z := 0 }

/-- The velocity of `AirControl` after its first `Normalize`. -/
def airControlDir (sqrt : K → K) (s : CPlayerComponent K) : Vec3 K :=
  Vec3.Normalize sqrt { s.playerVelocity with z := 0 }

/-- The local `k` of `AirControl`. -/
def airControlK (sqrt : K → K) (s : CPlayerComponent K) (wishdir : Vec3 K) : K :=
  32 * (s.airControl * (airControlDir sqrt s).dot wishdir * (airControlDir sqrt s).dot wishdir
    * s.m_frametime)

/-- The velocity of `AirControl` in its branch `dot > 0`, before the second `Normalize`. -/
def airControlTurned (sqrt : K → K) (s : CPlayerComponent K) (wishdir : Vec3 K) : Vec3 K :=
  ⟨(airControlDir sqrt s).x * airControlSpeed sqrt s + wishdir.x * airControlK sqrt s wishdir,
   (airControlDir sqrt s).y * airControlSpeed sqrt s + wishdir.y * airControlK sqrt s wishdir,
   (airControlDir sqrt s).z * airControlSpeed sqrt s + wishdir.z * airControlK sqrt s wishdir⟩

/-- An airborne player moving at `(3, 4, 7)` with `forwardMove = 1`, frame time 0.016. -/
def airSteering : CPlayerComponent K :=
  { (standing : CPlayerComponent K) with
    onGround := false
    m_inputFlags := EInputFlag.MoveForward
    playerVelocity := ⟨3, 4, 7⟩
    _cmd := ⟨1, 0, 0⟩ }

/-- The standing player with `MoveForward` and `MoveRight` held. -/
def pressingForwardRight : CPlayerComponent K :=
  { (standing : CPlayerComponent K) with
    m_inputFlags := EInputFlag.MoveForward ||| EInputFlag.MoveRight }

/-- An airborne player with only `MoveRight` held, frame time 0.016. -/
def airStrafingRight : CPlayerComponent K :=
  { (standing : CPlayerComponent K) with onGround := false, m_inputFlags := EInputFlag.MoveRight }

/-- The synthetic events `NetSerialize` raises when it reads, in the order it raises them:
the flags and the activation mode of each of its calls of `HandleInputFlagChange`. -/
def syntheticEvents (prevInputFlags inputFlags : Nat) : List (Nat × Nat) :=
  let changedKeys := prevInputFlags ^^^ inputFlags
  let pressedKeys := changedKeys &&& prevInputFlags
  let releasedKeys := changedKeys &&& prevInputFlags
  (if pressedKeys ≠ 0 then [(pressedKeys, eAAM_OnPress)] else []) ++
    (if releasedKeys ≠ 0 then [(pressedKeys, eAAM_OnRelease)] else [])

/-- The component after the events are handled in Hold mode, one after the other. -/
def handleEvents (s : CPlayerComponent K) (events : List (Nat × Nat)) : CPlayerComponent K :=
  events.foldl (fun t e => HandleInputFlagChange t e.1 e.2 EInputFlagType.Hold) s

end CPlayerComponent

/-! ## Theorems -/

namespace CPlayerComponent

variable {K : Type} [LinearOrderedField K]

/-! ### `SetMovementDir` -/

theorem CLAMP_of_mem {X mn mx : K} (h1 : mn ≤ X) (h2 : X ≤ mx) : CLAMP X mn mx = X := by
  unfold CLAMP
  rw [if_neg (not_lt.mpr h1)]
  split
  · rfl
  · rename_i h
    exact le_antisymm (not_lt.mp h) h2

theorem CLAMP_mem {X mn mx : K} (h : mn ≤ mx) : mn ≤ CLAMP X mn mx ∧ CLAMP X mn mx ≤ mx := by
  unfold CLAMP
  split
  · exact ⟨le_refl _, h⟩
  · rename_i h1
    split
    · rename_i h2
      exact ⟨not_lt.mp h1, le_of_lt h2⟩
    · exact ⟨h, le_refl _⟩

theorem SetMovementDir_cmd (s : CPlayerComponent K) :
    (SetMovementDir s)._cmd.forwardMove
        = axisValue (s.hasFlag EInputFlag.MoveForward) (s.hasFlag EInputFlag.MoveBack) ∧
    (SetMovementDir s)._cmd.rightMove
        = axisValue (s.hasFlag EInputFlag.MoveRight) (s.hasFlag EInputFlag.MoveLeft) := by
  unfold SetMovementDir axisValue
  cases s.hasFlag EInputFlag.MoveForward <;> cases s.hasFlag EInputFlag.MoveBack <;>
    cases s.hasFlag EInputFlag.MoveRight <;> cases s.hasFlag EInputFlag.MoveLeft <;>
    simp [CLAMP]

theorem flagMask_test (l r f b j : Bool) :
    (flagMask l r f b j &&& EInputFlag.MoveLeft != 0) = l ∧
    (flagMask l r f b j &&& EInputFlag.MoveRight != 0) = r ∧
    (flagMask l r f b j &&& EInputFlag.MoveForward != 0) = f ∧
    (flagMask l r f b j &&& EInputFlag.MoveBack != 0) = b := by
  cases l <;> cases r <;> cases f <;> cases b <;> cases j <;> decide

theorem hasFlag_flagMask (s : CPlayerComponent K) (l r f b j : Bool) :
    hasFlag { s with m_inputFlags := flagMask l r f b j } EInputFlag.MoveLeft = l ∧
    hasFlag { s with m_inputFlags := flagMask l r f b j } EInputFlag.MoveRight = r ∧
    hasFlag { s with m_inputFlags := flagMask l r f b j } EInputFlag.MoveForward = f ∧
    hasFlag { s with m_inputFlags := flagMask l r f b j } EInputFlag.MoveBack = b :=
  flagMask_test l r f b j

/-- C1: for each of the 32 combinations of the five input flags, `SetMovementDir` leaves
`forwardMove` and `rightMove` in `{-1, 0, 1}`; `forwardMove` is 0 when `MoveForward` and
`MoveBack` are both set or both clear, otherwise `+1` for forward and `-1` for back;
`rightMove` is 0 when `MoveLeft` and `MoveRight` are both set or both clear, otherwise
`+1` for right and `-1` for left. -/
theorem SetMovementDir_axes (s : CPlayerComponent K) (left right forward back jump : Bool) :
    let c := (SetMovementDir { s with m_inputFlags := flagMask left right forward back jump })._cmd
    (c.forwardMove = -1 ∨ c.forwardMove = 0 ∨ c.forwardMove = 1) ∧
    (c.rightMove = -1 ∨ c.rightMove = 0 ∨ c.rightMove = 1) ∧
    c.forwardMove = (if forward = back then 0 else if forward then 1 else -1) ∧
    c.rightMove = (if right = left then 0 else if right then 1 else -1) := by
  intro c
  obtain ⟨hf, hr⟩ :=
    SetMovementDir_cmd { s with m_inputFlags := flagMask left right forward back jump }
  obtain ⟨h1, h2, h3, h4⟩ := hasFlag_flagMask s left right forward back jump
  rw [h3, h4] at hf
  rw [h2, h1] at hr
  have hf' : c.forwardMove = (if forward = back then 0 else if forward then 1 else -1) := hf
  have hr' : c.rightMove = (if right = left then 0 else if right then 1 else -1) := hr
  refine ⟨?_, ?_, hf', hr'⟩
  · rw [hf']
    cases forward <;> cases back <;> simp
  · rw [hr']
    cases right <;> cases left <;> simp

/-! ### `Revive` -/

/-- C2 (as amended): for every prior state, transform and editor mode, after `Revive` the
input flags are empty, the look orientation is the identity, the mouse accumulator is
zero and the player is alive, while `playerVelocity` keeps the value it had. -/
theorem Revive_resets (isEditor : Bool) (s : CPlayerComponent K) (transform : Matrix34 K) :
    (Revive isEditor s transform).m_inputFlags = 0 ∧
    (Revive isEditor s transform).m_lookOrientation = Ang3.IDENTITY ∧
    (Revive isEditor s transform).m_mouseDeltaRotation = Vec2.ZERO ∧
    (Revive isEditor s transform).m_isAlive = true ∧
    (Revive isEditor s transform).playerVelocity = s.playerVelocity := by
  cases isEditor <;> simp [Revive]

/-- C2 (counterexample): reviving a player that moves at `(1, 0, 0)` leaves the velocity
at `(1, 0, 0)`, not at zero. -/
theorem Revive_keeps_velocity :
    (Revive false ({ (new : CPlayerComponent ℚ) with playerVelocity := ⟨1, 0, 0⟩ })
        ⟨Matrix33.IDENTITY, Vec3.ZERO⟩).playerVelocity = ⟨1, 0, 0⟩ ∧
    (Revive false ({ (new : CPlayerComponent ℚ) with playerVelocity := ⟨1, 0, 0⟩ })
        ⟨Matrix33.IDENTITY, Vec3.ZERO⟩).playerVelocity ≠ Vec3.ZERO := by
  constructor
  · rfl
  · simp [Revive, Vec3.ZERO]

/-! ### `Accelerate` -/

theorem Accelerate_noop (s : CPlayerComponent K) (wishdir : Vec3 K) (wishspeed accel : K)
    (h : wishspeed - s.playerVelocity.dot wishdir ≤ 0) :
    Accelerate s wishdir wishspeed accel = s := by
  unfold Accelerate
  simp only [if_pos h]

theorem Accelerate_dot_eq (s : CPlayerComponent K) (wishdir : Vec3 K) (wishspeed accel : K)
    (h : ¬ wishspeed - s.playerVelocity.dot wishdir ≤ 0) :
    (Accelerate s wishdir wishspeed accel).playerVelocity.dot wishdir
      = s.playerVelocity.dot wishdir
        + (if accel * s.m_frametime * wishspeed > wishspeed - s.playerVelocity.dot wishdir
            then wishspeed - s.playerVelocity.dot wishdir
            else accel * s.m_frametime * wishspeed)
          * (wishdir.x * wishdir.x + wishdir.y * wishdir.y) := by
  unfold Accelerate
  simp only [if_neg h]
  simp only [Vec3.dot]
  ring

/-- C4: for a unit-length horizontal wish direction, `wishspeed ≥ 0`, `accel ≥ 0` and a
frame time `≥ 0`, one `Accelerate` never lowers the speed along the wish direction and
never raises it above `max(d, wishspeed)`, where `d` is that speed before the call; and
when `wishspeed - d ≤ 0` the component is returned unchanged. -/
theorem Accelerate_bound (s : CPlayerComponent K) (wishdir : Vec3 K) (wishspeed accel : K)
    (hunit : wishdir.dot wishdir = 1) (hz : wishdir.z = 0)
    (hws : 0 ≤ wishspeed) (hacc : 0 ≤ accel) (hft : 0 ≤ s.m_frametime) :
    s.playerVelocity.dot wishdir
        ≤ (Accelerate s wishdir wishspeed accel).playerVelocity.dot wishdir ∧
    (Accelerate s wishdir wishspeed accel).playerVelocity.dot wishdir
        ≤ max (s.playerVelocity.dot wishdir) wishspeed ∧
    (wishspeed - s.playerVelocity.dot wishdir ≤ 0 →
        Accelerate s wishdir wishspeed accel = s) := by
  have hxy : wishdir.x * wishdir.x + wishdir.y * wishdir.y = 1 := by
    have h := hunit
    simp only [Vec3.dot, hz, mul_zero, add_zero] at h
    exact h
  by_cases h : wishspeed - s.playerVelocity.dot wishdir ≤ 0
  · rw [Accelerate_noop s wishdir wishspeed accel h]
    exact ⟨le_refl _, le_max_left _ _, fun _ => rfl⟩
  · rw [Accelerate_dot_eq s wishdir wishspeed accel h, hxy, mul_one]
    have hpos : 0 ≤ accel * s.m_frametime * wishspeed :=
      mul_nonneg (mul_nonneg hacc hft) hws
    have hadd : 0 < wishspeed - s.playerVelocity.dot wishdir := not_le.mp h
    refine ⟨?_, ?_, fun h' => absurd h' h⟩
    · split
      · linarith
      · linarith
    · apply le_trans _ (le_max_right _ _)
      split
      · linarith
      · rename_i h2
        have := not_lt.mp h2
        linarith

/-- C4 (witness): the player sliding at `(3, 4, 0)` with frame time 0.016, wish direction
`(0, 1, 0)`, wish speed 1000 and acceleration 140. -/
theorem Accelerate_bound_witness :
    (sliding : CPlayerComponent ℚ).playerVelocity.dot ⟨0, 1, 0⟩
        ≤ (Accelerate sliding ⟨0, 1, 0⟩ 1000 140).playerVelocity.dot ⟨0, 1, 0⟩ ∧
    (Accelerate (sliding : CPlayerComponent ℚ) ⟨0, 1, 0⟩ 1000 140).playerVelocity.dot ⟨0, 1, 0⟩
        ≤ max ((sliding : CPlayerComponent ℚ).playerVelocity.dot ⟨0, 1, 0⟩) 1000 :=
  ⟨(Accelerate_bound sliding ⟨0, 1, 0⟩ 1000 140 (by simp [Vec3.dot]) rfl (by norm_num)
      (by norm_num) (by show (0 : ℚ) ≤ 16 / 1000; norm_num)).1,
   (Accelerate_bound sliding ⟨0, 1, 0⟩ 1000 140 (by simp [Vec3.dot]) rfl (by norm_num)
      (by norm_num) (by show (0 : ℚ) ≤ 16 / 1000; norm_num)).2.1⟩

theorem Accelerate_zero_dir (s : CPlayerComponent K) (wishspeed accel : K) :
    Accelerate s ⟨0, 0, 0⟩ wishspeed accel = s := by
  unfold Accelerate
  simp only [mul_zero, add_zero]
  split <;> rfl

/-! ### `AirMove` -/

theorem SetMovementDir_eq (s : CPlayerComponent K) :
    SetMovementDir s = { s with _cmd := { s._cmd with
      forwardMove := axisValue (s.hasFlag EInputFlag.MoveForward) (s.hasFlag EInputFlag.MoveBack)
      rightMove := axisValue (s.hasFlag EInputFlag.MoveRight) (s.hasFlag EInputFlag.MoveLeft) } } := by
  obtain ⟨h1, h2⟩ := SetMovementDir_cmd s
  rw [← h1, ← h2]
  rfl

theorem mulVec_zero (m : Matrix33 K) : m.mulVec ⟨0, 0, 0⟩ = ⟨0, 0, 0⟩ := by
  simp [Matrix33.mulVec]

theorem Normalize_zero (sqrt : K → K) : Vec3.Normalize sqrt (⟨0, 0, 0⟩ : Vec3 K) = ⟨0, 0, 0⟩ := by
  simp [Vec3.Normalize]

/-- C6: for every velocity, world rotation and frame time, one `AirMove` with no input
flag set and gravity 2000 leaves the horizontal components of `playerVelocity` unchanged
and lowers `z` by exactly `2000 × frameTime`. -/
theorem AirMove_no_input (sqrt : K → K) (s : CPlayerComponent K) :
    (AirMove sqrt { s with m_inputFlags := 0, gravity := 2000 }).playerVelocity
      = ⟨s.playerVelocity.x, s.playerVelocity.y, s.playerVelocity.z - 2000 * s.m_frametime⟩ := by
  unfold AirMove
  rw [SetMovementDir_eq]
  simp only [hasFlag, Nat.zero_and, bne_self_eq_false, axisValue, if_true, mulVec_zero,
    Normalize_zero, Accelerate_zero_dir, AirControl, true_or]
  split <;> rfl

/-! ### `ApplyFriction` -/

theorem ApplyFriction_playerVelocity (sqrt : K → K) (s : CPlayerComponent K) (t : K) :
    (ApplyFriction sqrt s t).playerVelocity
      = ⟨s.playerVelocity.x * frictionScale sqrt s t,
         s.playerVelocity.y * frictionScale sqrt s t, s.playerVelocity.z⟩ :=
  rfl

theorem frictionScale_zero_speed (s : CPlayerComponent ℝ) (t : ℝ)
    (hx : s.playerVelocity.x = 0) (hz : s.playerVelocity.z = 0) (ht : 0 ≤ t)
    (hd : 0 ≤ s.runDeacceleration) (hf : 0 ≤ s.friction) (hft : 0 ≤ s.m_frametime) :
    frictionScale Real.sqrt s t = 0 := by
  unfold frictionScale
  simp only [Vec3.GetLength, hx, hz, mul_zero, add_zero, Real.sqrt_zero, lt_irrefl, if_false,
    gt_iff_lt, zero_sub]
  have key : ∀ d : ℝ, 0 ≤ d → (if -d < 0 then (0 : ℝ) else -d) = 0 := by
    intro d hd
    split
    · rfl
    · rename_i h
      have := not_lt.mp h
      linarith
  cases s.onGround
  · simp
  · simp only [if_true]
    apply key
    apply mul_nonneg (mul_nonneg (mul_nonneg _ hf) hft) ht
    split
    · exact hd
    · exact le_refl _

/-- C9 (the code at the failing input): for every frame time, grounded or not,
`ApplyFriction(0)` on the velocity `(0, 1000, 0)`, the velocity of a player running
straight ahead under the identity rotation, returns the velocity `(0, 0, 0)`: the `y`
component is lost although the factor is 0. -/
theorem ApplyFriction_zero_factor_stops_y (s : CPlayerComponent ℝ) :
    (ApplyFriction Real.sqrt { s with playerVelocity := ⟨0, 1000, 0⟩ } 0).playerVelocity
      = ⟨0, 0, 0⟩ := by
  rw [ApplyFriction_playerVelocity]
  have h : frictionScale Real.sqrt { s with playerVelocity := ⟨0, 1000, 0⟩ } 0 = 0 := by
    unfold frictionScale
    simp [Vec3.GetLength]
  rw [h]
  simp

theorem frictionScale_mem (s : CPlayerComponent ℝ) (hg : s.onGround = true)
    (hfr : s.friction = 6) (hrd : s.runDeacceleration = 600) (hft : 0 < s.m_frametime) :
    0 ≤ frictionScale Real.sqrt s 1 ∧ frictionScale Real.sqrt s 1 < 1 := by
  unfold frictionScale
  simp only [Vec3.GetLength, hg, if_true, hfr, hrd, mul_one, gt_iff_lt]
  have hs : 0 ≤ Real.sqrt (s.playerVelocity.x * s.playerVelocity.x + 0 * 0
      + s.playerVelocity.z * s.playerVelocity.z) := Real.sqrt_nonneg _
  generalize Real.sqrt (s.playerVelocity.x * s.playerVelocity.x + 0 * 0
      + s.playerVelocity.z * s.playerVelocity.z) = speed at hs
  have hc : 600 ≤ (if speed < 600 then (600 : ℝ) else speed) := by
    split
    · exact le_refl _
    · rename_i h
      exact not_lt.mp h
  generalize (if speed < 600 then (600 : ℝ) else speed) = control at hc
  have hdrop : 0 < control * 6 * s.m_frametime := by positivity
  generalize control * 6 * s.m_frametime = drop at hdrop
  by_cases hsp : 0 < speed
  · rw [if_pos hsp]
    split
    · rw [zero_div]
      exact ⟨le_refl _, zero_lt_one⟩
    · rename_i h
      constructor
      · exact div_nonneg (not_lt.mp h) hs
      · rw [div_lt_one hsp]
        linarith
  · rw [if_neg hsp]
    have h0 : speed = 0 := le_antisymm (not_lt.mp hsp) hs
    rw [if_pos (by rw [h0]; linarith)]
    exact ⟨le_refl _, zero_lt_one⟩

theorem sqrt_scale (vx vy f : ℝ) (hf : 0 ≤ f) :
    Real.sqrt (vx * f * (vx * f) + vy * f * (vy * f)) = f * Real.sqrt (vx * vx + vy * vy) := by
  have h : vx * f * (vx * f) + vy * f * (vy * f) = f * f * (vx * vx + vy * vy) := by ring
  rw [h, Real.sqrt_mul (mul_self_nonneg f), Real.sqrt_mul_self hf]

/-! ### `GroundMove` -/

theorem GroundMove_no_input (sqrt : K → K) (s : CPlayerComponent K)
    (hL : s.hasFlag EInputFlag.MoveLeft = false) (hR : s.hasFlag EInputFlag.MoveRight = false)
    (hF : s.hasFlag EInputFlag.MoveForward = false) (hB : s.hasFlag EInputFlag.MoveBack = false)
    (hj : s.wishJump = false) :
    (GroundMove sqrt s).playerVelocity
      = ⟨s.playerVelocity.x * frictionScale sqrt s 1,
         s.playerVelocity.y * frictionScale sqrt s 1, 0⟩ := by
  have e : SetMovementDir (ApplyFriction sqrt s 1)
      = { ApplyFriction sqrt s 1 with _cmd := { (ApplyFriction sqrt s 1)._cmd with
            forwardMove := 0, rightMove := 0 } } := by
    rw [SetMovementDir_eq]
    have h1 : hasFlag (ApplyFriction sqrt s 1) EInputFlag.MoveLeft = false := hL
    have h2 : hasFlag (ApplyFriction sqrt s 1) EInputFlag.MoveRight = false := hR
    have h3 : hasFlag (ApplyFriction sqrt s 1) EInputFlag.MoveForward = false := hF
    have h4 : hasFlag (ApplyFriction sqrt s 1) EInputFlag.MoveBack = false := hB
    rw [h1, h2, h3, h4]
    simp [axisValue]
  have hj' : (ApplyFriction sqrt s 1).wishJump = false := hj
  unfold GroundMove
  simp only [hj, Bool.not_false, if_true, e, mulVec_zero, Normalize_zero, Accelerate_zero_dir,
    hj', Bool.false_eq_true, if_false]
  rfl

theorem Accelerate_playerVelocity (s : CPlayerComponent K) (wishdir : Vec3 K)
    (wishspeed accel : K) :
    (Accelerate s wishdir wishspeed accel).playerVelocity
      = if wishspeed - s.playerVelocity.dot wishdir ≤ 0 then s.playerVelocity
        else
          ⟨s.playerVelocity.x
              + (if accel * s.m_frametime * wishspeed > wishspeed - s.playerVelocity.dot wishdir
                  then wishspeed - s.playerVelocity.dot wishdir
                  else accel * s.m_frametime * wishspeed) * wishdir.x,
           s.playerVelocity.y
              + (if accel * s.m_frametime * wishspeed > wishspeed - s.playerVelocity.dot wishdir
                  then wishspeed - s.playerVelocity.dot wishdir
                  else accel * s.m_frametime * wishspeed) * wishdir.y,
           s.playerVelocity.z⟩ := by
  unfold Accelerate
  simp only []
  split <;> rfl

theorem GroundMove_playerVelocity (sqrt : K → K) (s : CPlayerComponent K) :
    (GroundMove sqrt s).playerVelocity
      = { (Accelerate
            { SetMovementDir (ApplyFriction sqrt s (if s.wishJump then 0 else 1)) with
              moveDirectionNorm :=
                ((ApplyFriction sqrt s (if s.wishJump then 0 else 1)).worldRotation.mulVec
                  ⟨(SetMovementDir (ApplyFriction sqrt s (if s.wishJump then 0 else 1)))._cmd.rightMove,
                   (SetMovementDir (ApplyFriction sqrt s (if s.wishJump then 0 else 1)))._cmd.forwardMove,
                   0⟩).Normalize sqrt }
            (((ApplyFriction sqrt s (if s.wishJump then 0 else 1)).worldRotation.mulVec
                  ⟨(SetMovementDir (ApplyFriction sqrt s (if s.wishJump then 0 else 1)))._cmd.rightMove,
                   (SetMovementDir (ApplyFriction sqrt s (if s.wishJump then 0 else 1)))._cmd.forwardMove,
                   0⟩).Normalize sqrt)
            ((((ApplyFriction sqrt s (if s.wishJump then 0 else 1)).worldRotation.mulVec
                  ⟨(SetMovementDir (ApplyFriction sqrt s (if s.wishJump then 0 else 1)))._cmd.rightMove,
                   (SetMovementDir (ApplyFriction sqrt s (if s.wishJump then 0 else 1)))._cmd.forwardMove,
                   0⟩).Normalize sqrt).GetLength sqrt * s.m_moveSpeed)
            s.runAcceleration).playerVelocity with z := 0 } := by
  unfold GroundMove
  cases hj : s.wishJump
  · simp only [Bool.not_false, if_true, Bool.false_eq_true, if_false]
    split <;> rfl
  · simp only [Bool.not_true, Bool.false_eq_true, if_false, if_true]
    split <;> rfl

/-- C5: starting from zero velocity with exactly `MoveForward` held, no jump queued, the
identity world rotation, `runAcceleration = 140` and `m_moveSpeed = 1000`, one
`GroundMove` with a frame time of at least `1/140` leaves `playerVelocity = (0, 1000, 0)`. -/
theorem GroundMove_forward_one_frame (s : CPlayerComponent ℝ)
    (hv : s.playerVelocity = Vec3.ZERO) (hflags : s.m_inputFlags = EInputFlag.MoveForward)
    (hj : s.wishJump = false) (hrot : s.worldRotation = Matrix33.IDENTITY)
    (hacc : s.runAcceleration = 140) (hms : s.m_moveSpeed = 1000)
    (hft : 1 / 140 ≤ s.m_frametime) :
    (GroundMove Real.sqrt s).playerVelocity = ⟨0, 1000, 0⟩ := by
  have hL : hasFlag (ApplyFriction Real.sqrt s 1) EInputFlag.MoveLeft = false := by
    show (s.m_inputFlags &&& EInputFlag.MoveLeft != 0) = false
    rw [hflags]; decide
  have hR : hasFlag (ApplyFriction Real.sqrt s 1) EInputFlag.MoveRight = false := by
    show (s.m_inputFlags &&& EInputFlag.MoveRight != 0) = false
    rw [hflags]; decide
  have hF : hasFlag (ApplyFriction Real.sqrt s 1) EInputFlag.MoveForward = true := by
    show (s.m_inputFlags &&& EInputFlag.MoveForward != 0) = true
    rw [hflags]; decide
  have hB : hasFlag (ApplyFriction Real.sqrt s 1) EInputFlag.MoveBack = false := by
    show (s.m_inputFlags &&& EInputFlag.MoveBack != 0) = false
    rw [hflags]; decide
  have hrot' : (ApplyFriction Real.sqrt s 1).worldRotation = Matrix33.IDENTITY := hrot
  have hft' : (ApplyFriction Real.sqrt s 1).m_frametime = s.m_frametime := rfl
  have hpv : (ApplyFriction Real.sqrt s 1).playerVelocity = ⟨0, 0, 0⟩ := by
    rw [ApplyFriction_playerVelocity, hv]
    simp [Vec3.ZERO]
  have hdir : Vec3.Normalize Real.sqrt (Matrix33.mulVec Matrix33.IDENTITY (⟨0, 1, 0⟩ : Vec3 ℝ))
      = ⟨0, 1, 0⟩ := by
    simp [Vec3.Normalize, Matrix33.mulVec, Matrix33.IDENTITY]
  have hlen : Vec3.GetLength Real.sqrt (⟨0, 1, 0⟩ : Vec3 ℝ) = 1 := by
    simp [Vec3.GetLength]
  rw [GroundMove_playerVelocity, hj]
  simp only [Bool.false_eq_true, Bool.true_eq_false, if_false, SetMovementDir_eq, hL, hR, hF,
    hB, axisValue, hrot', if_true, hdir, hlen, Accelerate_playerVelocity, hpv, hft', hacc, hms,
    Vec3.dot]
  have h1 : ¬ ((1 : ℝ) * 1000 - (0 * 0 + 0 * 1 + 0 * 0) ≤ 0) := by norm_num
  have h2 : ¬ (140 * s.m_frametime * (1 * 1000) > (1 : ℝ) * 1000 - (0 * 0 + 0 * 1 + 0 * 0))
      → 140 * s.m_frametime * (1 * 1000) = 1000 := by
    intro h
    have := not_lt.mp h
    linarith
  simp only [if_neg h1]
  split
  · norm_num
  · rename_i h
    rw [h2 h]
    norm_num

/-- C5 (witness): the standing player with `MoveForward` held and frame time 0.016. -/
theorem GroundMove_forward_one_frame_witness :
    (GroundMove Real.sqrt (pressingForward : CPlayerComponent ℝ)).playerVelocity
      = ⟨0, 1000, 0⟩ :=
  GroundMove_forward_one_frame pressingForward rfl rfl rfl rfl rfl rfl
    (by show (1 / 140 : ℝ) ≤ 16 / 1000; norm_num)

/-! ### What each step leaves alone -/

theorem Accelerate_frame (s : CPlayerComponent K) (wishdir : Vec3 K) (wishspeed accel : K) :
    Accelerate s wishdir wishspeed accel
      = { s with playerVelocity := (Accelerate s wishdir wishspeed accel).playerVelocity } := by
  unfold Accelerate
  simp only []
  split <;> rfl

theorem AirControl_frame (sqrt : K → K) (s : CPlayerComponent K) (wishdir : Vec3 K)
    (wishspeed : K) :
    AirControl sqrt s wishdir wishspeed
      = { s with
          playerVelocity := (AirControl sqrt s wishdir wishspeed).playerVelocity
          moveDirectionNorm := (AirControl sqrt s wishdir wishspeed).moveDirectionNorm } := by
  unfold AirControl
  simp only []
  split
  · rfl
  · split <;> rfl

theorem Accelerate_lookOrientation (s : CPlayerComponent K) (wishdir : Vec3 K)
    (wishspeed accel : K) :
    (Accelerate s wishdir wishspeed accel).m_lookOrientation = s.m_lookOrientation := by
  rw [Accelerate_frame]

theorem AirControl_lookOrientation (sqrt : K → K) (s : CPlayerComponent K) (wishdir : Vec3 K)
    (wishspeed : K) :
    (AirControl sqrt s wishdir wishspeed).m_lookOrientation = s.m_lookOrientation := by
  rw [AirControl_frame]

theorem GroundMove_fields (sqrt : K → K) (s : CPlayerComponent K) :
    (GroundMove sqrt s).wishJump = false ∧
    (GroundMove sqrt s).impulses = s.impulses ++ (if s.wishJump then [800] else []) ∧
    (GroundMove sqrt s).m_inputFlags = s.m_inputFlags ∧
    (GroundMove sqrt s).friction = s.friction ∧
    (GroundMove sqrt s).runDeacceleration = s.runDeacceleration ∧
    (GroundMove sqrt s).m_lookOrientation = s.m_lookOrientation := by
  have aux : ∀ b : Bool,
      (GroundMove sqrt { s with wishJump := b }).wishJump = false ∧
      (GroundMove sqrt { s with wishJump := b }).impulses
        = s.impulses ++ (if b then [800] else []) ∧
      (GroundMove sqrt { s with wishJump := b }).m_inputFlags = s.m_inputFlags ∧
      (GroundMove sqrt { s with wishJump := b }).friction = s.friction ∧
      (GroundMove sqrt { s with wishJump := b }).runDeacceleration = s.runDeacceleration ∧
      (GroundMove sqrt { s with wishJump := b }).m_lookOrientation = s.m_lookOrientation := by
    intro b
    unfold GroundMove
    simp only []
    rw [Accelerate_frame]
    cases b
    · exact ⟨rfl, (List.append_nil _).symm, rfl, rfl, rfl, rfl⟩
    · exact ⟨rfl, rfl, rfl, rfl, rfl, rfl⟩
  exact aux s.wishJump

theorem AirMove_lookOrientation (sqrt : K → K) (s : CPlayerComponent K) :
    (AirMove sqrt s).m_lookOrientation = s.m_lookOrientation := by
  unfold AirMove
  simp only [apply_ite CPlayerComponent.m_lookOrientation, AirControl_lookOrientation,
    Accelerate_lookOrientation, ite_self]
  rfl

theorem UpdateLookDirectionRequest_frame (s : CPlayerComponent K) (frameTime : K) :
    UpdateLookDirectionRequest s frameTime
      = { s with
          m_horizontalAngularVelocity :=
            (UpdateLookDirectionRequest s frameTime).m_horizontalAngularVelocity
          m_averagedHorizontalAngularVelocity :=
            (UpdateLookDirectionRequest s frameTime).m_averagedHorizontalAngularVelocity
          m_lookOrientation := (UpdateLookDirectionRequest s frameTime).m_lookOrientation
          m_mouseDeltaRotation := (UpdateLookDirectionRequest s frameTime).m_mouseDeltaRotation } := by
  unfold UpdateLookDirectionRequest
  simp only []
  split <;> rfl

theorem updateLook_fields (orient : Ang3 K → Matrix33 K) (s : CPlayerComponent K)
    (frameTime : K) :
    (updateLook orient s frameTime).playerVelocity = s.playerVelocity ∧
    (updateLook orient s frameTime).m_inputFlags = s.m_inputFlags ∧
    (updateLook orient s frameTime).wishJump = s.wishJump ∧
    (updateLook orient s frameTime).friction = s.friction ∧
    (updateLook orient s frameTime).runDeacceleration = s.runDeacceleration ∧
    (updateLook orient s frameTime).onGround = s.onGround ∧
    (updateLook orient s frameTime).impulses = s.impulses ∧
    (updateLook orient s frameTime).m_frametime = frameTime := by
  have aux : ∀ b : Bool,
      (updateLook orient { s with isLocalClient := b } frameTime).playerVelocity
        = s.playerVelocity ∧
      (updateLook orient { s with isLocalClient := b } frameTime).m_inputFlags
        = s.m_inputFlags ∧
      (updateLook orient { s with isLocalClient := b } frameTime).wishJump = s.wishJump ∧
      (updateLook orient { s with isLocalClient := b } frameTime).friction = s.friction ∧
      (updateLook orient { s with isLocalClient := b } frameTime).runDeacceleration
        = s.runDeacceleration ∧
      (updateLook orient { s with isLocalClient := b } frameTime).onGround = s.onGround ∧
      (updateLook orient { s with isLocalClient := b } frameTime).impulses = s.impulses ∧
      (updateLook orient { s with isLocalClient := b } frameTime).m_frametime = frameTime := by
    intro b
    unfold updateLook
    simp only []
    rw [UpdateLookDirectionRequest_frame]
    cases b <;> exact ⟨rfl, rfl, rfl, rfl, rfl, rfl, rfl, rfl⟩
  exact aux s.isLocalClient

theorem Update_eq (sqrt : K → K) (orient : Ang3 K → Matrix33 K) (s : CPlayerComponent K)
    (frameTime : K) :
    Update sqrt orient s frameTime
      = if s.onGround then GroundMove sqrt (updateLook orient s frameTime)
        else AirMove sqrt (updateLook orient s frameTime) := by
  have h : Update sqrt orient s frameTime
      = if (updateLook orient s frameTime).onGround
          then GroundMove sqrt (updateLook orient s frameTime)
          else AirMove sqrt (updateLook orient s frameTime) := rfl
  rw [h, (updateLook_fields orient s frameTime).2.2.2.2.2.1]

/-! ### The pitch limits -/

theorem UpdateLookDirectionRequest_pitch (s : CPlayerComponent K) (frameTime : K)
    (h : pitchInLimits s) : pitchInLimits (UpdateLookDirectionRequest s frameTime) := by
  unfold UpdateLookDirectionRequest
  simp only []
  split
  · exact h
  · exact CLAMP_mem (by norm_num)

theorem UpdateCamera_pitch (s : CPlayerComponent K) (frameTime : K) :
    pitchInLimits (UpdateCamera s frameTime) := by
  unfold UpdateCamera pitchInLimits
  simp only []
  cases s.m_bSliding
  · exact CLAMP_mem (by norm_num)
  · exact CLAMP_mem (by norm_num)

theorem updateLook_pitch (orient : Ang3 K → Matrix33 K) (s : CPlayerComponent K)
    (frameTime : K) (h : pitchInLimits s) : pitchInLimits (updateLook orient s frameTime) := by
  unfold updateLook
  simp only []
  split
  · exact UpdateCamera_pitch _ _
  · exact UpdateLookDirectionRequest_pitch { s with m_frametime := frameTime } frameTime h

theorem Update_pitch (sqrt : K → K) (orient : Ang3 K → Matrix33 K) (s : CPlayerComponent K)
    (frameTime : K) (h : pitchInLimits s) : pitchInLimits (Update sqrt orient s frameTime) := by
  have h1 := updateLook_pitch orient s frameTime h
  rw [Update_eq]
  unfold pitchInLimits at *
  split
  · rw [(GroundMove_fields sqrt _).2.2.2.2.2]
    exact h1
  · rw [AirMove_lookOrientation]
    exact h1

/-! ### `HandleInputFlagChange` and the input callbacks -/

theorem HandleInputFlagChange_frame (s : CPlayerComponent K) (flags activationMode : Nat)
    (type : EInputFlagType) :
    HandleInputFlagChange s flags activationMode type
      = { s with
          m_inputFlags := (HandleInputFlagChange s flags activationMode type).m_inputFlags
          inputAspectDirty :=
            (HandleInputFlagChange s flags activationMode type).inputAspectDirty } := by
  have aux : ∀ b : Bool,
      HandleInputFlagChange { s with isLocalClient := b } flags activationMode type
        = { s with
            isLocalClient := b
            m_inputFlags := (HandleInputFlagChange { s with isLocalClient := b } flags
              activationMode type).m_inputFlags
            inputAspectDirty := (HandleInputFlagChange { s with isLocalClient := b } flags
              activationMode type).inputAspectDirty } := by
    intro b
    unfold HandleInputFlagChange
    cases type <;> cases b <;> simp only [] <;> split <;> rfl
  exact aux s.isLocalClient

theorem HandleInputFlagChange_inputFlags (s : CPlayerComponent K) (flags activationMode : Nat)
    (type : EInputFlagType) :
    (HandleInputFlagChange s flags activationMode type).m_inputFlags
      = match type with
        | EInputFlagType.Hold =>
          if activationMode = eAAM_OnRelease then s.m_inputFlags &&& flagsNot flags
          else s.m_inputFlags ||| flags
        | EInputFlagType.Toggle =>
          if activationMode = eAAM_OnRelease then s.m_inputFlags ^^^ flags
          else s.m_inputFlags := by
  unfold HandleInputFlagChange
  cases type <;> simp only [] <;> split <;> split <;> rfl

theorem flagsNot_testBit (flags i : Nat) (hi : i < 8) :
    (flagsNot flags).testBit i = !flags.testBit i := by
  unfold flagsNot
  rw [Nat.testBit_xor, show (255 : Nat) = 2 ^ 8 - 1 from rfl, Nat.testBit_two_pow_sub_one,
    show (256 : Nat) = 2 ^ 8 from rfl, Nat.testBit_mod_two_pow]
  simp [hi]

/-- C10: in Hold mode a release event leaves `m_inputFlags & ~flags` (every bit of `flags`
cleared) and any other activation leaves `m_inputFlags | flags`; in Toggle mode a release
event leaves `m_inputFlags ^ flags` and any other activation leaves `m_inputFlags`
unchanged; and in both modes, for every activation, each of the eight bits that is not
in `flags` keeps its value. -/
theorem HandleInputFlagChange_modes (s : CPlayerComponent K) (flags activationMode : Nat) :
    (HandleInputFlagChange s flags activationMode EInputFlagType.Hold).m_inputFlags
      = (if activationMode = eAAM_OnRelease then s.m_inputFlags &&& flagsNot flags
          else s.m_inputFlags ||| flags) ∧
    (HandleInputFlagChange s flags activationMode EInputFlagType.Toggle).m_inputFlags
      = (if activationMode = eAAM_OnRelease then s.m_inputFlags ^^^ flags
          else s.m_inputFlags) ∧
    (∀ i : Fin 8,
      (HandleInputFlagChange s flags eAAM_OnRelease EInputFlagType.Hold).m_inputFlags.testBit i
        = (s.m_inputFlags.testBit i && !flags.testBit i)) ∧
    (∀ (type : EInputFlagType) (i : Fin 8),
      flags.testBit i = true ∨
      (HandleInputFlagChange s flags activationMode type).m_inputFlags.testBit i
        = s.m_inputFlags.testBit i) := by
  refine ⟨HandleInputFlagChange_inputFlags s flags activationMode EInputFlagType.Hold,
    HandleInputFlagChange_inputFlags s flags activationMode EInputFlagType.Toggle, ?_, ?_⟩
  · intro i
    rw [HandleInputFlagChange_inputFlags]
    simp only [if_true, Nat.testBit_and, flagsNot_testBit flags i i.isLt]
  · intro type i
    rw [HandleInputFlagChange_inputFlags]
    cases hb : flags.testBit i
    · right
      cases type <;> simp only [] <;> split <;>
        simp [Nat.testBit_and, Nat.testBit_or, Nat.testBit_xor,
          flagsNot_testBit flags i i.isLt, hb]
    · left
      rfl

theorem onAction_lookOrientation (s : CPlayerComponent K) (a : Action K) :
    (onAction s a).m_lookOrientation = s.m_lookOrientation := by
  cases a <;> unfold onAction <;> simp only []
  case moveleft => rw [HandleInputFlagChange_frame]
  case moveright => rw [HandleInputFlagChange_frame]
  case moveforward => rw [HandleInputFlagChange_frame]
  case moveback => rw [HandleInputFlagChange_frame]
  case jump => split_ifs <;> rfl

theorem onAction_not_jump (s : CPlayerComponent K) (a : Action K) (h : a.isJumpEdge = false) :
    (onAction s a).wishJump = s.wishJump ∧ (onAction s a).impulses = s.impulses := by
  cases a
  case moveleft => unfold onAction; simp only []; rw [HandleInputFlagChange_frame]; exact ⟨rfl, rfl⟩
  case moveright => unfold onAction; simp only []; rw [HandleInputFlagChange_frame]; exact ⟨rfl, rfl⟩
  case moveforward => unfold onAction; simp only []; rw [HandleInputFlagChange_frame]; exact ⟨rfl, rfl⟩
  case moveback => unfold onAction; simp only []; rw [HandleInputFlagChange_frame]; exact ⟨rfl, rfl⟩
  case mouse_rotateyaw => exact ⟨rfl, rfl⟩
  case mouse_rotatepitch => exact ⟨rfl, rfl⟩
  case jump m =>
    have h' : ¬ m = eAAM_OnPress ∧ ¬ m = eAAM_OnRelease := by
      simpa [Action.isJumpEdge] using h
    have e : onAction s (Action.jump m) = s := by
      unfold onAction
      simp only [if_neg h'.1, if_neg h'.2]
    rw [e]
    exact ⟨rfl, rfl⟩

theorem onAction_mouse (s : CPlayerComponent K) (a : Action K) (h : a.isMouse = true) :
    (onAction s a).playerVelocity = s.playerVelocity ∧
    (onAction s a).m_inputFlags = s.m_inputFlags ∧
    (onAction s a).wishJump = s.wishJump ∧
    (onAction s a).friction = s.friction ∧
    (onAction s a).runDeacceleration = s.runDeacceleration := by
  cases a <;> first
    | exact ⟨rfl, rfl, rfl, rfl, rfl⟩
    | exact absurd h (by simp [Action.isMouse])

theorem actions_lookOrientation (acts : List (Action K)) (s : CPlayerComponent K) :
    (acts.foldl onAction s).m_lookOrientation = s.m_lookOrientation := by
  induction acts generalizing s with
  | nil => rfl
  | cons a rest ih =>
    rw [List.foldl_cons, ih, onAction_lookOrientation]

theorem actions_not_jump (acts : List (Action K)) (s : CPlayerComponent K)
    (h : ∀ a ∈ acts, a.isJumpEdge = false) :
    (acts.foldl onAction s).wishJump = s.wishJump ∧
    (acts.foldl onAction s).impulses = s.impulses := by
  induction acts generalizing s with
  | nil => exact ⟨rfl, rfl⟩
  | cons a rest ih =>
    rw [List.foldl_cons]
    obtain ⟨h1, h2⟩ := ih (onAction s a) (fun b hb => h b (List.mem_cons_of_mem _ hb))
    obtain ⟨h3, h4⟩ := onAction_not_jump s a (h a (List.mem_cons_self _ _))
    exact ⟨h1.trans h3, h2.trans h4⟩

theorem actions_mouse (acts : List (Action K)) (s : CPlayerComponent K)
    (h : ∀ a ∈ acts, a.isMouse = true) :
    (acts.foldl onAction s).playerVelocity = s.playerVelocity ∧
    (acts.foldl onAction s).m_inputFlags = s.m_inputFlags ∧
    (acts.foldl onAction s).wishJump = s.wishJump ∧
    (acts.foldl onAction s).friction = s.friction ∧
    (acts.foldl onAction s).runDeacceleration = s.runDeacceleration := by
  induction acts generalizing s with
  | nil => exact ⟨rfl, rfl, rfl, rfl, rfl⟩
  | cons a rest ih =>
    rw [List.foldl_cons]
    obtain ⟨h1, h2, h3, h4, h5⟩ :=
      ih (onAction s a) (fun b hb => h b (List.mem_cons_of_mem _ hb))
    obtain ⟨g1, g2, g3, g4, g5⟩ := onAction_mouse s a (h a (List.mem_cons_self _ _))
    exact ⟨h1.trans g1, h2.trans g2, h3.trans g3, h4.trans g4, h5.trans g5⟩

/-! ### Frames -/

theorem runFrame_pitch (sqrt : K → K) (orient : Ang3 K → Matrix33 K) (s : CPlayerComponent K)
    (f : Frame K) (h : pitchInLimits s) : pitchInLimits (runFrame sqrt orient s f) := by
  unfold runFrame
  apply Update_pitch
  unfold pitchInLimits at *
  have e : ({ f.actions.foldl onAction s with onGround := f.onGround } :
      CPlayerComponent K).m_lookOrientation = s.m_lookOrientation :=
    actions_lookOrientation f.actions s
  rw [e]
  exact h

theorem runFrames_pitch (sqrt : K → K) (orient : Ang3 K → Matrix33 K) (fs : List (Frame K))
    (s : CPlayerComponent K) (h : pitchInLimits s) :
    pitchInLimits (runFrames sqrt orient s fs) := by
  induction fs generalizing s with
  | nil => exact h
  | cons f rest ih => exact ih _ (runFrame_pitch sqrt orient s f h)

/-- C8: starting from the identity look orientation, after every finite sequence of
frames (each with any input callbacks, mouse deltas included, any ground contact and any
frame time) the stored pitch lies in `[-0.84, 1.5]`; and in the frame that follows, the
pitch stored by `UpdateLookDirectionRequest` and the pitch stored by `UpdateCamera` lie
in `[-0.84, 1.5]` as well. -/
theorem pitch_stays_in_limits (sqrt : K → K) (orient : Ang3 K → Matrix33 K)
    (s : CPlayerComponent K) (fs : List (Frame K)) (acts : List (Action K)) (frameTime : K) :
    pitchInLimits (runFrames sqrt orient { s with m_lookOrientation := Ang3.IDENTITY } fs) ∧
    pitchInLimits (UpdateLookDirectionRequest
      (acts.foldl onAction
        (runFrames sqrt orient { s with m_lookOrientation := Ang3.IDENTITY } fs)) frameTime) ∧
    pitchInLimits (UpdateCamera (UpdateLookRotationZ orient (UpdateLookDirectionRequest
      (acts.foldl onAction
        (runFrames sqrt orient { s with m_lookOrientation := Ang3.IDENTITY } fs)) frameTime)
      frameTime) frameTime) := by
  have h0 : pitchInLimits ({ s with m_lookOrientation := Ang3.IDENTITY } : CPlayerComponent K) := by
    unfold pitchInLimits Ang3.IDENTITY
    constructor <;> norm_num
  have h1 := runFrames_pitch sqrt orient fs _ h0
  refine ⟨h1, ?_, UpdateCamera_pitch _ _⟩
  apply UpdateLookDirectionRequest_pitch
  unfold pitchInLimits at *
  rw [actions_lookOrientation]
  exact h1

theorem runFrame_jump (sqrt : K → K) (orient : Ang3 K → Matrix33 K) (s : CPlayerComponent K)
    (f : Frame K) (hf : f.GroundedNoJump) :
    (runFrame sqrt orient s f).wishJump = false ∧
    (runFrame sqrt orient s f).impulses = s.impulses ++ (if s.wishJump then [800] else []) := by
  obtain ⟨hg, hacts⟩ := hf
  obtain ⟨a1, a2⟩ := actions_not_jump f.actions s hacts
  unfold runFrame
  simp only []
  rw [Update_eq]
  simp only [hg, if_true]
  obtain ⟨u1, u2, u3, u4, u5, u6, u7, u8⟩ :=
    updateLook_fields orient { f.actions.foldl onAction s with onGround := true } f.frameTime
  obtain ⟨g1, g2, _⟩ := GroundMove_fields sqrt
    (updateLook orient { f.actions.foldl onAction s with onGround := true } f.frameTime)
  refine ⟨g1, ?_⟩
  rw [g2, u7, u3]
  show (f.actions.foldl onAction s).impulses
      ++ (if (f.actions.foldl onAction s).wishJump = true then [800] else []) = _
  rw [a1, a2]

theorem runFrames_no_jump (sqrt : K → K) (orient : Ang3 K → Matrix33 K) (fs : List (Frame K))
    (s : CPlayerComponent K) (hs : s.wishJump = false) (hfs : ∀ g ∈ fs, g.GroundedNoJump) :
    (runFrames sqrt orient s fs).wishJump = false ∧
    (runFrames sqrt orient s fs).impulses = s.impulses := by
  induction fs generalizing s with
  | nil => exact ⟨hs, rfl⟩
  | cons f rest ih =>
    obtain ⟨h1, h2⟩ := runFrame_jump sqrt orient s f (hfs f (List.mem_cons_self _ _))
    obtain ⟨h3, h4⟩ := ih (runFrame sqrt orient s f) h1
      (fun g hg => hfs g (List.mem_cons_of_mem _ hg))
    refine ⟨h3, ?_⟩
    show (runFrames sqrt orient (runFrame sqrt orient s f) rest).impulses = _
    rw [h4, h2, hs]
    simp

/-- C7: over every non-empty sequence of grounded frames in which the jump action fires
neither a press nor a release, `wishJump` is false at the end and the impulses applied are
exactly one impulse with `z = 800` when `wishJump` was true at the start and none
otherwise. As this holds for every non-empty sequence, it holds after the first frame
and after every later one: the impulse is applied in the first frame and never again. -/
theorem one_impulse_per_queued_jump (sqrt : K → K) (orient : Ang3 K → Matrix33 K)
    (s : CPlayerComponent K) (f : Frame K) (fs : List (Frame K))
    (hfs : ∀ g ∈ f :: fs, g.GroundedNoJump) :
    (runFrames sqrt orient s (f :: fs)).wishJump = false ∧
    (runFrames sqrt orient s (f :: fs)).impulses
      = s.impulses ++ (if s.wishJump then [800] else []) := by
  obtain ⟨h1, h2⟩ := runFrame_jump sqrt orient s f (hfs f (List.mem_cons_self _ _))
  obtain ⟨h3, h4⟩ := runFrames_no_jump sqrt orient fs (runFrame sqrt orient s f) h1
    (fun g hg => hfs g (List.mem_cons_of_mem _ hg))
  refine ⟨h3, ?_⟩
  show (runFrames sqrt orient (runFrame sqrt orient s f) fs).impulses = _
  rw [h4, h2]

/-! ### Friction without input -/

theorem GroundMove_slows (s : CPlayerComponent ℝ) (hs : Idle s) (hg : s.onGround = true)
    (hft : 0 < s.m_frametime) :
    SlowsDown (horizontalSpeed Real.sqrt s) (horizontalSpeed Real.sqrt (GroundMove Real.sqrt s)) := by
  obtain ⟨hL, hR, hF, hB, hj, hfr, hrd⟩ := hs
  obtain ⟨f0, f1⟩ := frictionScale_mem s hg hfr hrd hft
  have e : horizontalSpeed Real.sqrt (GroundMove Real.sqrt s)
      = frictionScale Real.sqrt s 1 * horizontalSpeed Real.sqrt s := by
    unfold horizontalSpeed
    rw [GroundMove_no_input Real.sqrt s hL hR hF hB hj]
    exact sqrt_scale _ _ _ f0
  have h0 : 0 ≤ horizontalSpeed Real.sqrt s := Real.sqrt_nonneg _
  rw [e]
  refine ⟨fun h => ?_, fun h => ?_, mul_nonneg f0 h0⟩
  · have := mul_lt_mul_of_pos_right f1 h
    linarith
  · rw [h, mul_zero]

theorem runFrame_idle (orient : Ang3 ℝ → Matrix33 ℝ) (s : CPlayerComponent ℝ) (f : Frame ℝ)
    (hs : Idle s) (hf : f.IdleGrounded) :
    Idle (runFrame Real.sqrt orient s f) ∧
    SlowsDown (horizontalSpeed Real.sqrt s)
      (horizontalSpeed Real.sqrt (runFrame Real.sqrt orient s f)) := by
  obtain ⟨hL, hR, hF, hB, hj, hfr, hrd⟩ := hs
  obtain ⟨hg, hft, hacts⟩ := hf
  obtain ⟨a1, a2, a3, a4, a5⟩ := actions_mouse f.actions s hacts
  obtain ⟨u1, u2, u3, u4, u5, u6, u7, u8⟩ :=
    updateLook_fields orient { f.actions.foldl onAction s with onGround := f.onGround } f.frameTime
  have v1 : (updateLook orient { f.actions.foldl onAction s with onGround := f.onGround }
      f.frameTime).playerVelocity = s.playerVelocity := u1.trans a1
  have v2 : (updateLook orient { f.actions.foldl onAction s with onGround := f.onGround }
      f.frameTime).m_inputFlags = s.m_inputFlags := u2.trans a2
  have hu : Idle (updateLook orient { f.actions.foldl onAction s with onGround := f.onGround }
      f.frameTime) := by
    unfold Idle hasFlag at *
    rw [v2]
    exact ⟨hL, hR, hF, hB, u3.trans (a3.trans hj), u4.trans (a4.trans hfr),
      u5.trans (a5.trans hrd)⟩
  have hstep := GroundMove_slows _ hu (u6.trans hg) (by rw [u8]; exact hft)
  have hspeed : horizontalSpeed Real.sqrt (updateLook orient
      { f.actions.foldl onAction s with onGround := f.onGround } f.frameTime)
      = horizontalSpeed Real.sqrt s := by
    unfold horizontalSpeed
    rw [v1]
  rw [hspeed] at hstep
  obtain ⟨g1, g2, g3, g4, g5, g6⟩ := GroundMove_fields Real.sqrt
    (updateLook orient { f.actions.foldl onAction s with onGround := f.onGround } f.frameTime)
  have hrun : runFrame Real.sqrt orient s f
      = GroundMove Real.sqrt (updateLook orient
          { f.actions.foldl onAction s with onGround := f.onGround } f.frameTime) := by
    unfold runFrame
    simp only []
    rw [Update_eq]
    simp only [hg, if_true]
  rw [hrun]
  refine ⟨?_, hstep⟩
  obtain ⟨iL, iR, iF, iB, ij, ifr, ird⟩ := hu
  unfold Idle hasFlag at *
  rw [g3]
  exact ⟨iL, iR, iF, iB, g1, g4.trans ifr, g5.trans ird⟩

theorem runFrames_idle (orient : Ang3 ℝ → Matrix33 ℝ) (fs : List (Frame ℝ))
    (s : CPlayerComponent ℝ) (hs : Idle s) (hfs : ∀ g ∈ fs, g.IdleGrounded) :
    Idle (runFrames Real.sqrt orient s fs) := by
  induction fs generalizing s with
  | nil => exact hs
  | cons f rest ih =>
    exact ih _ (runFrame_idle orient s f hs (hfs f (List.mem_cons_self _ _))).1
      (fun g hg => hfs g (List.mem_cons_of_mem _ hg))

/-- C3: with no movement flag set, no jump queued, `friction = 6` and
`runDeacceleration = 600`, one grounded `GroundMove` with a positive frame time leaves a
horizontal speed `sqrt(vx^2 + vy^2)` that is strictly smaller than before when that was
positive, zero when it was zero, and never negative; and over every sequence of such
frames the speed after one more frame stands in the same relation to the speed before
it, so the speed strictly decreases until it is zero and then stays zero. -/
theorem friction_slows_down (orient : Ang3 ℝ → Matrix33 ℝ) (s : CPlayerComponent ℝ)
    (fs : List (Frame ℝ)) (f : Frame ℝ) (hs : Idle s) (hg : s.onGround = true)
    (hft : 0 < s.m_frametime) (hfs : ∀ g ∈ fs, g.IdleGrounded) (hf : f.IdleGrounded) :
    SlowsDown (horizontalSpeed Real.sqrt s)
      (horizontalSpeed Real.sqrt (GroundMove Real.sqrt s)) ∧
    SlowsDown (horizontalSpeed Real.sqrt (runFrames Real.sqrt orient s fs))
      (horizontalSpeed Real.sqrt (runFrames Real.sqrt orient s (fs ++ [f]))) := by
  refine ⟨GroundMove_slows s hs hg hft, ?_⟩
  have e : runFrames Real.sqrt orient s (fs ++ [f])
      = runFrame Real.sqrt orient (runFrames Real.sqrt orient s fs) f := by
    unfold runFrames
    rw [List.foldl_append]
    rfl
  rw [e]
  exact (runFrame_idle orient _ f (runFrames_idle orient fs s hs hfs) hf).2

theorem quietFrame_idleGrounded : (quietFrame : Frame ℝ).IdleGrounded :=
  ⟨rfl, by show (0 : ℝ) < 1 / 100; norm_num, fun a ha => absurd ha (List.not_mem_nil a)⟩

theorem mouseFrame_idleGrounded : (mouseFrame : Frame ℝ).IdleGrounded := by
  refine ⟨rfl, by show (0 : ℝ) < 1 / 50; norm_num, fun a ha => ?_⟩
  have h : a = Action.mouse_rotateyaw 1 := List.mem_singleton.mp ha
  rw [h]
  rfl

/-- C3 (witness): the player sliding at `(3, 4, 0)`, a quiet frame of 0.01 s and then a
frame of 0.02 s in which the mouse moved. -/
theorem friction_slows_down_witness :
    SlowsDown (horizontalSpeed Real.sqrt (sliding : CPlayerComponent ℝ))
      (horizontalSpeed Real.sqrt (GroundMove Real.sqrt sliding)) ∧
    SlowsDown
      (horizontalSpeed Real.sqrt
        (runFrames Real.sqrt (fun _ => Matrix33.IDENTITY) sliding [quietFrame]))
      (horizontalSpeed Real.sqrt
        (runFrames Real.sqrt (fun _ => Matrix33.IDENTITY) sliding ([quietFrame] ++ [mouseFrame]))) :=
  friction_slows_down (fun _ => Matrix33.IDENTITY) sliding [quietFrame] mouseFrame
    ⟨rfl, rfl, rfl, rfl, rfl, rfl, rfl⟩ rfl (by show (0 : ℝ) < 16 / 1000; norm_num)
    (fun g hg => by rw [List.mem_singleton.mp hg]; exact quietFrame_idleGrounded)
    mouseFrame_idleGrounded

theorem forwardFrame_groundedNoJump : (forwardFrame : Frame ℚ).GroundedNoJump := by
  refine ⟨rfl, fun a ha => ?_⟩
  have h : a = Action.moveforward eAAM_OnPress := List.mem_singleton.mp ha
  rw [h]
  rfl

theorem quietFrame_groundedNoJump : (quietFrame : Frame ℚ).GroundedNoJump :=
  ⟨rfl, fun a ha => absurd ha (List.not_mem_nil a)⟩

/-- C7 (witness): a queued jump, then a frame in which the forward key is pressed and a
quiet frame: one impulse of 800 in all. -/
theorem one_impulse_per_queued_jump_witness :
    (runFrames (fun x => x) (fun _ => Matrix33.IDENTITY) (jumpQueued : CPlayerComponent ℚ)
      (forwardFrame :: [quietFrame])).wishJump = false ∧
    (runFrames (fun x => x) (fun _ => Matrix33.IDENTITY) (jumpQueued : CPlayerComponent ℚ)
      (forwardFrame :: [quietFrame])).impulses = [800] :=
  one_impulse_per_queued_jump (fun x => x) (fun _ => Matrix33.IDENTITY) jumpQueued forwardFrame
    [quietFrame]
    (fun g hg => by
      rcases List.mem_cons.mp hg with h | h
      · rw [h]; exact forwardFrame_groundedNoJump
      · rw [List.mem_singleton.mp h]; exact quietFrame_groundedNoJump)

/-! ### Repeated input events -/

/-- C11 (as amended): applying `HandleInputFlagChange` twice with the same arguments
leaves the same `m_inputFlags` as applying it once in Hold mode, for every activation, and
in Toggle mode for every activation other than a release; a release in Toggle mode
applied twice gives back the flags from before the first one. -/
theorem HandleInputFlagChange_twice (s : CPlayerComponent K) (flags activationMode : Nat) :
    (HandleInputFlagChange (HandleInputFlagChange s flags activationMode EInputFlagType.Hold)
        flags activationMode EInputFlagType.Hold).m_inputFlags
      = (HandleInputFlagChange s flags activationMode EInputFlagType.Hold).m_inputFlags ∧
    (activationMode = eAAM_OnRelease ∨
      (HandleInputFlagChange (HandleInputFlagChange s flags activationMode EInputFlagType.Toggle)
          flags activationMode EInputFlagType.Toggle).m_inputFlags
        = (HandleInputFlagChange s flags activationMode EInputFlagType.Toggle).m_inputFlags) ∧
    (HandleInputFlagChange (HandleInputFlagChange s flags eAAM_OnRelease EInputFlagType.Toggle)
        flags eAAM_OnRelease EInputFlagType.Toggle).m_inputFlags = s.m_inputFlags := by
  simp only [HandleInputFlagChange_inputFlags]
  refine ⟨?_, ?_, ?_⟩
  · split
    · rw [Nat.and_assoc, Nat.and_self]
    · rw [Nat.or_assoc, Nat.or_self]
  · by_cases h : activationMode = eAAM_OnRelease
    · exact Or.inl h
    · right
      simp only [if_neg h]
  · simp only [if_true]
    rw [Nat.xor_assoc, Nat.xor_self, Nat.xor_zero]

/-- C11 (counterexample): in Toggle mode, a release of `MoveLeft` applied once to the
empty mask sets the flag, applied twice it leaves the mask empty again. -/
theorem toggle_release_twice_differs :
    (HandleInputFlagChange (HandleInputFlagChange (standing : CPlayerComponent ℚ)
        EInputFlag.MoveLeft eAAM_OnRelease EInputFlagType.Toggle)
        EInputFlag.MoveLeft eAAM_OnRelease EInputFlagType.Toggle).m_inputFlags = 0 ∧
    (HandleInputFlagChange (standing : CPlayerComponent ℚ)
        EInputFlag.MoveLeft eAAM_OnRelease EInputFlagType.Toggle).m_inputFlags = 1 ∧
    (HandleInputFlagChange (HandleInputFlagChange (standing : CPlayerComponent ℚ)
        EInputFlag.MoveLeft eAAM_OnRelease EInputFlagType.Toggle)
        EInputFlag.MoveLeft eAAM_OnRelease EInputFlagType.Toggle).m_inputFlags
      ≠ (HandleInputFlagChange (standing : CPlayerComponent ℚ)
        EInputFlag.MoveLeft eAAM_OnRelease EInputFlagType.Toggle).m_inputFlags := by
  simp only [HandleInputFlagChange_inputFlags]
  decide

/-! ### `NetSerialize` -/

theorem flagsNot_lt (flags : Nat) : flagsNot flags < 256 := by
  unfold flagsNot
  exact Nat.xor_lt_two_pow (n := 8) (by decide) (Nat.mod_lt _ (by decide))

theorem testBit_eq_false_of_lt_256 (x i : Nat) (hx : x < 256) (hi : 8 ≤ i) :
    x.testBit i = false := by
  apply Nat.testBit_lt_two_pow
  calc x < 2 ^ 8 := hx
    _ ≤ 2 ^ i := Nat.pow_le_pow_right (by decide) hi

theorem press_then_release (prev new : Nat) (hn : new < 256) :
    (new ||| ((prev ^^^ new) &&& prev)) &&& flagsNot ((prev ^^^ new) &&& prev) = new := by
  apply Nat.eq_of_testBit_eq
  intro i
  by_cases hi : i < 8
  · simp only [Nat.testBit_and, Nat.testBit_or, Nat.testBit_xor, flagsNot_testBit _ i hi]
    cases prev.testBit i <;> cases new.testBit i <;> rfl
  · have h8 : 8 ≤ i := Nat.le_of_not_lt hi
    rw [Nat.testBit_and, testBit_eq_false_of_lt_256 _ i (flagsNot_lt _) h8,
      testBit_eq_false_of_lt_256 _ i hn h8, Bool.and_false]

/-- C12: for every previous 8-bit mask and every received 8-bit mask, after `NetSerialize`
has read the input aspect (the received mask stored, the difference to the previous mask
taken, the press event and then the release event handled in Hold mode) `m_inputFlags`
is the received mask. -/
theorem NetSerialize_reads_flags (s : CPlayerComponent K) (prev new : Fin 256)
    (lookOrientation : Ang3 K) :
    (NetSerialize { s with m_inputFlags := prev } ⟨true, new, lookOrientation⟩
      InputAspect).m_inputFlags = new := by
  unfold NetSerialize
  simp only [if_true]
  by_cases hP : ((prev : Nat) ^^^ (new : Nat)) &&& (prev : Nat) = 0
  · simp only [hP, ne_eq, not_true_eq_false, if_false]
  · simp only [ne_eq, hP, not_false_eq_true, if_true, HandleInputFlagChange_inputFlags]
    exact press_then_release prev new new.isLt

/-! ### `ProcessEvent` -/

/-- C14: for every state with `m_isAlive = false` and every frame time, `ProcessEvent`
on an `Update` event returns the component as it was: no member changes, and no velocity
command and no impulse is added to those issued to the physical body. -/
theorem ProcessEvent_update_not_alive (sqrt : K → K) (orient : Ang3 K → Matrix33 K)
    (s : CPlayerComponent K) (frameTime : K) :
    ProcessEvent sqrt orient { s with m_isAlive := false } (SEntityEvent.Update frameTime)
      = { s with m_isAlive := false } :=
  rfl

end CPlayerComponent

/-! ### `MovingAverage` -/

namespace MovingAverage

variable {T : Type} [Field T]

theorem holdsWindow_first (f : MovingAverage T) (v : T) (h : f.m_cursor = SAMPLES_COUNT) :
    HoldsWindow (Push f v) (List.replicate SAMPLES_COUNT v) := by
  refine ⟨[], v, List.replicate 9 v, ?_, ?_, ?_, ?_, ?_⟩
  · simp [Push, h, SAMPLES_COUNT, List.replicate]
  · simp [Push, h]
  · simp [SAMPLES_COUNT, List.replicate]
  · simp
  · simp [Push, h, SAMPLES_COUNT, List.replicate]
    ring

theorem getD_append_cons (a : List T) (x : T) (b : List T) :
    (a ++ x :: b).getD a.length 0 = x := by
  induction a with
  | nil => rfl
  | cons y a2 ih => simpa using ih

theorem holdsWindow_step (f : MovingAverage T) (w : List T) (v : T) (h : HoldsWindow f w) :
    HoldsWindow (Push f v) (w.tail ++ [v]) := by
  obtain ⟨a, x, b, hv, hc, hw, hl, hacc⟩ := h
  have hlen : a.length + 1 + b.length = SAMPLES_COUNT := by
    rw [← hl, hw]
    simp
    omega
  have hne : ¬ f.m_cursor = SAMPLES_COUNT := by
    rw [hc]
    omega
  have hget : (a ++ x :: b).getD a.length 0 = x := getD_append_cons a x b
  have hset : (a ++ x :: b).set a.length v = a ++ v :: b := by simp
  have hget' : (a ++ v :: b).getD a.length 0 = v := getD_append_cons a v b
  have hsum : f.m_accumulator - x + v = (w.tail ++ [v]).sum := by
    rw [hacc, hw]
    simp
    ring
  have hP : Push f v
      = ⟨a ++ v :: b, (a.length + 1) % SAMPLES_COUNT, f.m_accumulator - x + v⟩ := by
    unfold Push
    rw [if_neg hne]
    simp only [hv, hc, hget, hset, hget']
  rw [hP]
  cases b with
  | nil =>
    cases a with
    | nil => simp [SAMPLES_COUNT] at hlen
    | cons y a2 =>
      refine ⟨[], y, a2 ++ [v], ?_, ?_, ?_, ?_, hsum⟩
      · simp
      · have : (y :: a2).length + 1 = SAMPLES_COUNT := by simpa using hlen
        simp only [this, Nat.mod_self, List.length_nil]
      · rw [hw]
        simp
      · rw [hw]
        simp
        simpa using hlen
  | cons y b2 =>
    refine ⟨a ++ [v], y, b2, ?_, ?_, ?_, ?_, hsum⟩
    · simp
    · have : a.length + 1 < SAMPLES_COUNT := by
        simp at hlen
        omega
      rw [Nat.mod_eq_of_lt this]
      simp
    · rw [hw]
      simp
    · rw [hw]
      simp
      simp at hlen
      omega

theorem holdsWindow_pushAll (vs : List T) (f : MovingAverage T) (w : List T)
    (h : HoldsWindow f w) : HoldsWindow (pushAll f vs) (slide w vs) := by
  induction vs generalizing f w with
  | nil => exact h
  | cons v rest ih => exact ih _ _ (holdsWindow_step f w v h)

theorem slide_eq (vs : List T) (w : List T) (hw : w ≠ []) :
    slide w vs = (w ++ vs).drop vs.length := by
  induction vs generalizing w with
  | nil => simp [slide]
  | cons v rest ih =>
    have h1 : slide w (v :: rest) = slide (w.tail ++ [v]) rest := rfl
    rw [h1, ih _ (by simp)]
    cases w with
    | nil => exact absurd rfl hw
    | cons x t => simp

theorem slide_replicate (v : T) (rest : List T) (h : SAMPLES_COUNT ≤ rest.length + 1) :
    slide (List.replicate SAMPLES_COUNT v) rest = lastSamples (v :: rest) := by
  rw [slide_eq _ _ (by simp [SAMPLES_COUNT])]
  have e : List.replicate SAMPLES_COUNT v ++ rest = List.replicate 9 v ++ (v :: rest) := by
    simp [SAMPLES_COUNT, List.replicate]
  have h9 : 9 ≤ rest.length := by
    simp only [SAMPLES_COUNT] at h
    omega
  rw [e, List.drop_append_eq_append_drop, List.drop_eq_nil_of_le (by simpa using h9)]
  simp only [List.nil_append, List.length_replicate, lastSamples, List.length_cons, SAMPLES_COUNT]
  congr 1

theorem Get_of_cursor_at_end (f : MovingAverage T) (vs : List T)
    (hf : f.m_cursor = SAMPLES_COUNT) (h : SAMPLES_COUNT ≤ vs.length) :
    Get (pushAll f vs) = (lastSamples vs).sum / 10 := by
  cases vs with
  | nil => simp [SAMPLES_COUNT] at h
  | cons v rest =>
    have h1 : pushAll f (v :: rest) = pushAll (Push f v) rest := rfl
    have hW := holdsWindow_pushAll rest _ _ (holdsWindow_first f v hf)
    rw [slide_replicate v rest (by simpa using h)] at hW
    obtain ⟨a, x, b, _, _, _, _, hacc⟩ := hW
    unfold Get
    rw [h1, hacc]
    simp [SAMPLES_COUNT]

/-- C13: after a `Reset` of any filter, or from a newly constructed filter, and `k ≥ 10`
calls of `Push`, `Get` returns the sum of the last 10 pushed values divided by 10. -/
theorem Get_after_Reset (f : MovingAverage T) (vs : List T) (h : SAMPLES_COUNT ≤ vs.length) :
    Get (pushAll (Reset f) vs) = (lastSamples vs).sum / 10 ∧
    Get (pushAll (new : MovingAverage T) vs) = (lastSamples vs).sum / 10 :=
  ⟨Get_of_cursor_at_end (Reset f) vs rfl h, Get_of_cursor_at_end new vs rfl h⟩

/-- C13 (witness): eleven pushes of `1, 2, …, 11` into a filter that held other samples;
the average is that of `2, …, 11`. -/
theorem Get_after_Reset_witness :
    Get (pushAll (Reset (Push (new : MovingAverage ℚ) 100)) [1, 2, 3, 4, 5, 6, 7, 8, 9, 10, 11])
      = (lastSamples [(1 : ℚ), 2, 3, 4, 5, 6, 7, 8, 9, 10, 11]).sum / 10 ∧
    Get (pushAll (new : MovingAverage ℚ) [1, 2, 3, 4, 5, 6, 7, 8, 9, 10, 11])
      = (lastSamples [(1 : ℚ), 2, 3, 4, 5, 6, 7, 8, 9, 10, 11]).sum / 10 :=
  Get_after_Reset (Push (new : MovingAverage ℚ) 100) [1, 2, 3, 4, 5, 6, 7, 8, 9, 10, 11]
    (by decide)

end MovingAverage

namespace CPlayerComponent

variable {K : Type} [LinearOrderedField K]

/-! ### The angular velocity sample -/

theorem UpdateLookDirectionRequest_sample (s : CPlayerComponent K) (frameTime : K) :
    (UpdateLookDirectionRequest s frameTime).m_horizontalAngularVelocity
      = (s.m_mouseDeltaRotation.x * (2 / 1000)) / frameTime ∧
    (UpdateLookDirectionRequest s frameTime).m_averagedHorizontalAngularVelocity
      = s.m_averagedHorizontalAngularVelocity.Push
          ((s.m_mouseDeltaRotation.x * (2 / 1000)) / frameTime) := by
  unfold UpdateLookDirectionRequest
  simp only []
  split <;> exact ⟨rfl, rfl⟩

/-- C15 (as amended): the angular-velocity computation of `UpdateLookDirectionRequest` has
no guard on the frame time. For every frame time the sample is
`(deltaX × 0.002) / frameTime` with the frame time itself as the divisor, so that
`sample × frameTime = deltaX × 0.002` whenever the frame time is not zero, negative frame
times included; and that sample is pushed into the moving average on every call. -/
theorem angular_velocity_divides_by_frameTime (s : CPlayerComponent K) (frameTime : K) :
    (UpdateLookDirectionRequest s frameTime).m_horizontalAngularVelocity
      = (s.m_mouseDeltaRotation.x * (2 / 1000)) / frameTime ∧
    (frameTime = 0 ∨
      (UpdateLookDirectionRequest s frameTime).m_horizontalAngularVelocity * frameTime
        = s.m_mouseDeltaRotation.x * (2 / 1000)) ∧
    (UpdateLookDirectionRequest s frameTime).m_averagedHorizontalAngularVelocity
      = s.m_averagedHorizontalAngularVelocity.Push
          (UpdateLookDirectionRequest s frameTime).m_horizontalAngularVelocity := by
  obtain ⟨h1, h2⟩ := UpdateLookDirectionRequest_sample s frameTime
  refine ⟨h1, ?_, ?_⟩
  · by_cases h : frameTime = 0
    · exact Or.inl h
    · right
      rw [h1, div_mul_cancel₀ _ h]
  · rw [h2, h1]

/-- C15 (counterexample): with a mouse delta of 1 and the frame time `-1` the sample is
`-0.002`, which no strictly positive divisor of `1 × 0.002` produces. -/
theorem angular_velocity_divisor_not_positive :
    (UpdateLookDirectionRequest (mouseMoved : CPlayerComponent ℚ) (-1)).m_horizontalAngularVelocity
      = -(2 / 1000) ∧
    ¬ ∃ d : ℚ, 0 < d ∧
      (UpdateLookDirectionRequest (mouseMoved : CPlayerComponent ℚ) (-1)).m_horizontalAngularVelocity
        = ((mouseMoved : CPlayerComponent ℚ).m_mouseDeltaRotation.x * (2 / 1000)) / d := by
  have h := (UpdateLookDirectionRequest_sample (mouseMoved : CPlayerComponent ℚ) (-1)).1
  have hx : (mouseMoved : CPlayerComponent ℚ).m_mouseDeltaRotation.x = 1 := rfl
  rw [h, hx]
  constructor
  · norm_num
  · rintro ⟨d, hd, he⟩
    have hpos : (0 : ℚ) < 1 * (2 / 1000) / d := by positivity
    rw [← he] at hpos
    norm_num at hpos

/-! ### Friction at zero speed -/

/-- C16 (the code at the failing input): for the grounded player running straight ahead
at `(0, 1000, 0)`, with the header's constants and a frame time of 0.016, the speed that
`ApplyFriction(1)` computes is 0 and the call returns the velocity `(0, 0, 0)`: the `y`
component is not kept. -/
theorem ApplyFriction_zero_speed_stops_y :
    Vec3.GetLength Real.sqrt
      { (runningForward : CPlayerComponent ℝ).playerVelocity with y := 0 } = 0 ∧
    (ApplyFriction Real.sqrt (runningForward : CPlayerComponent ℝ) 1).playerVelocity
      = ⟨0, 0, 0⟩ := by
  constructor
  · show Real.sqrt (0 * 0 + 0 * 0 + 0 * 0) = 0
    simp
  · rw [ApplyFriction_playerVelocity,
      frictionScale_zero_speed runningForward 1 rfl rfl zero_le_one
        (by show (0 : ℝ) ≤ 600; norm_num) (by show (0 : ℝ) ≤ 6; norm_num)
        (by show (0 : ℝ) ≤ 16 / 1000; norm_num)]
    show (⟨0 * 0, 1000 * 0, 0⟩ : Vec3 ℝ) = ⟨0, 0, 0⟩
    simp

/-! ### The dead zone -/

/-- C19 (the code at the failing input): for every state and frame time, with the
accumulated mouse delta `(0.00005, 0)`, inside the dead zone,
`UpdateLookDirectionRequest` leaves `m_lookOrientation` unchanged and pushes the sample,
but returns with the accumulator still at `(0.00005, 0)`, not at `(0, 0)`. -/
theorem dead_zone_keeps_accumulator (s : CPlayerComponent ℚ) (frameTime : ℚ) :
    (UpdateLookDirectionRequest { s with m_mouseDeltaRotation := ⟨1 / 20000, 0⟩ }
      frameTime).m_mouseDeltaRotation = ⟨1 / 20000, 0⟩ ∧
    (UpdateLookDirectionRequest { s with m_mouseDeltaRotation := ⟨1 / 20000, 0⟩ }
      frameTime).m_mouseDeltaRotation ≠ Vec2.ZERO ∧
    (UpdateLookDirectionRequest { s with m_mouseDeltaRotation := ⟨1 / 20000, 0⟩ }
      frameTime).m_lookOrientation = s.m_lookOrientation ∧
    (UpdateLookDirectionRequest { s with m_mouseDeltaRotation := ⟨1 / 20000, 0⟩ }
      frameTime).m_averagedHorizontalAngularVelocity
      = s.m_averagedHorizontalAngularVelocity.Push ((1 / 20000 * (2 / 1000)) / frameTime) := by
  have hdead : Vec2.IsEquivalent (⟨1 / 20000, 0⟩ : Vec2 ℚ) Vec2.ZERO MOUSE_DELTA_TRESHOLD
      = true := by
    simp only [Vec2.IsEquivalent, Vec2.ZERO, MOUSE_DELTA_TRESHOLD, sub_zero, abs_zero,
      Bool.and_eq_true, decide_eq_true_eq]
    constructor
    · rw [abs_of_nonneg (by norm_num)]
      norm_num
    · norm_num
  have e : UpdateLookDirectionRequest { s with m_mouseDeltaRotation := ⟨1 / 20000, 0⟩ } frameTime
      = { s with
          m_mouseDeltaRotation := ⟨1 / 20000, 0⟩
          m_horizontalAngularVelocity := (1 / 20000 * (2 / 1000)) / frameTime
          m_averagedHorizontalAngularVelocity :=
            s.m_averagedHorizontalAngularVelocity.Push ((1 / 20000 * (2 / 1000)) / frameTime) } := by
    unfold UpdateLookDirectionRequest
    simp only [hdead, if_true]
  rw [e]
  refine ⟨rfl, ?_, rfl, rfl⟩
  simp [Vec2.ZERO]

/-! ### The wish speed -/

theorem wishVector_eq (s : CPlayerComponent K) :
    wishVector s = s.worldRotation.mulVec
      ⟨axisValue (s.hasFlag EInputFlag.MoveRight) (s.hasFlag EInputFlag.MoveLeft),
       axisValue (s.hasFlag EInputFlag.MoveForward) (s.hasFlag EInputFlag.MoveBack), 0⟩ := by
  unfold wishVector
  rw [SetMovementDir_eq]

theorem GroundMove_passes_groundWishSpeed (sqrt : K → K) (s : CPlayerComponent K) :
    (GroundMove sqrt s).playerVelocity
      = { (Accelerate
            { SetMovementDir (ApplyFriction sqrt s (if s.wishJump then 0 else 1)) with
              moveDirectionNorm := (wishVector s).Normalize sqrt }
            ((wishVector s).Normalize sqrt) (groundWishSpeed sqrt s)
            s.runAcceleration).playerVelocity with z := 0 } :=
  GroundMove_playerVelocity sqrt s

theorem AirMove_eq (sqrt : K → K) (s : CPlayerComponent K) :
    AirMove sqrt s
      = (fun t : CPlayerComponent K =>
          { t with
            playerVelocity :=
              { t.playerVelocity with z := t.playerVelocity.z - t.gravity * t.m_frametime }
            velocityCmds := t.velocityCmds ++
              [Vec3.scale { t.playerVelocity with
                z := t.playerVelocity.z - t.gravity * t.m_frametime } t.m_frametime] })
        ((fun t : CPlayerComponent K =>
          if t.airControl > 0 then
            AirControl sqrt t ((wishVector s).Normalize sqrt) (airWishSpeed2 sqrt s)
          else t)
          (Accelerate { SetMovementDir s with moveDirectionNorm := (wishVector s).Normalize sqrt }
            ((wishVector s).Normalize sqrt) (airWishSpeed sqrt s) (airAccel sqrt s))) :=
  rfl

theorem Normalize_lengthSq (v : Vec3 ℝ) (h : 0 < v.x * v.x + v.y * v.y + v.z * v.z) :
    (v.Normalize Real.sqrt).x * (v.Normalize Real.sqrt).x
      + (v.Normalize Real.sqrt).y * (v.Normalize Real.sqrt).y
      + (v.Normalize Real.sqrt).z * (v.Normalize Real.sqrt).z = 1 := by
  have hs : Real.sqrt (v.x * v.x + v.y * v.y + v.z * v.z)
      * Real.sqrt (v.x * v.x + v.y * v.y + v.z * v.z)
      = v.x * v.x + v.y * v.y + v.z * v.z := Real.mul_self_sqrt h.le
  have hne : Real.sqrt (v.x * v.x + v.y * v.y + v.z * v.z) ≠ 0 :=
    (Real.sqrt_pos.mpr h).ne'
  simp only [Vec3.Normalize]
  generalize Real.sqrt (v.x * v.x + v.y * v.y + v.z * v.z) = r at hs hne ⊢
  field_simp
  linear_combination -hs

theorem GetLength_Normalize (v : Vec3 ℝ) (h : 0 < v.x * v.x + v.y * v.y + v.z * v.z) :
    (v.Normalize Real.sqrt).GetLength Real.sqrt = 1 := by
  unfold Vec3.GetLength
  rw [Normalize_lengthSq v h, Real.sqrt_one]

theorem wishVector_pressingForwardRight :
    wishVector (pressingForwardRight : CPlayerComponent ℝ) = ⟨1, 1, 0⟩ := by
  rw [wishVector_eq]
  have hR : hasFlag (pressingForwardRight : CPlayerComponent ℝ) EInputFlag.MoveRight = true := by
    decide
  have hL : hasFlag (pressingForwardRight : CPlayerComponent ℝ) EInputFlag.MoveLeft = false := by
    decide
  have hF : hasFlag (pressingForwardRight : CPlayerComponent ℝ) EInputFlag.MoveForward = true := by
    decide
  have hB : hasFlag (pressingForwardRight : CPlayerComponent ℝ) EInputFlag.MoveBack = false := by
    decide
  rw [hR, hL, hF, hB]
  show Matrix33.mulVec Matrix33.IDENTITY _ = _
  simp [Matrix33.mulVec, Matrix33.IDENTITY, axisValue]

/-- C17 (the code at the failing input): with `MoveForward` and `MoveRight` held, the
identity world rotation and `m_moveSpeed = 1000`, the `wishspeed` that `GroundMove` passes
to `Accelerate` is 1000, so its square is not `2 × 1000²`, while the square of the
`wishspeed` that `AirMove` passes to `Accelerate` is `2 × 1000²`. -/
theorem groundWishSpeed_forward_right :
    groundWishSpeed Real.sqrt (pressingForwardRight : CPlayerComponent ℝ) = 1000 ∧
    groundWishSpeed Real.sqrt (pressingForwardRight : CPlayerComponent ℝ) ^ 2 ≠ 2 * 1000 ^ 2 ∧
    airWishSpeed Real.sqrt (pressingForwardRight : CPlayerComponent ℝ) ^ 2 = 2 * 1000 ^ 2 := by
  have hg : groundWishSpeed Real.sqrt (pressingForwardRight : CPlayerComponent ℝ) = 1000 := by
    unfold groundWishSpeed
    simp only [wishVector_pressingForwardRight]
    rw [GetLength_Normalize _ (by norm_num)]
    show (1 : ℝ) * 1000 = 1000
    norm_num
  have hstrafe : airStrafing (pressingForwardRight : CPlayerComponent ℝ) = false := by
    unfold airStrafing
    rw [SetMovementDir_eq]
    have hF : hasFlag (pressingForwardRight : CPlayerComponent ℝ) EInputFlag.MoveForward
        = true := by decide
    have hB : hasFlag (pressingForwardRight : CPlayerComponent ℝ) EInputFlag.MoveBack
        = false := by decide
    simp [hF, hB, axisValue]
  have ha : airWishSpeed Real.sqrt (pressingForwardRight : CPlayerComponent ℝ) ^ 2
      = 2 * 1000 ^ 2 := by
    unfold airWishSpeed
    simp only [hstrafe, Bool.false_eq_true, if_false]
    unfold airWishSpeed2
    simp only [wishVector_pressingForwardRight, Vec3.GetLength]
    show (Real.sqrt (1 * 1 + 1 * 1 + 0 * 0) * 1000) ^ 2 = 2 * 1000 ^ 2
    rw [mul_pow, Real.sq_sqrt (by norm_num)]
    norm_num
  refine ⟨hg, ?_, ha⟩
  rw [hg]
  norm_num

/-! ### `AirControl` -/

theorem AirControl_playerVelocity (sqrt : K → K) (s : CPlayerComponent K) (wishdir : Vec3 K)
    (wishspeed : K) :
    (AirControl sqrt s wishdir wishspeed).playerVelocity
      = if s._cmd.forwardMove = 0 ∨ wishspeed = 0 then s.playerVelocity
        else if (airControlDir sqrt s).dot wishdir > 0 then
          ⟨((airControlTurned sqrt s wishdir).Normalize sqrt).x * airControlSpeed sqrt s,
           ((airControlTurned sqrt s wishdir).Normalize sqrt).y * airControlSpeed sqrt s,
           s.playerVelocity.z⟩
        else
          ⟨(airControlDir sqrt s).x * airControlSpeed sqrt s,
           (airControlDir sqrt s).y * airControlSpeed sqrt s, s.playerVelocity.z⟩ := by
  unfold AirControl
  simp only []
  split
  · rfl
  · have e : Vec3.dot (Vec3.Normalize sqrt { s.playerVelocity with z := 0 }) wishdir
        = (airControlDir sqrt s).dot wishdir := rfl
    rw [e]
    split <;> rfl

theorem airControlDir_mul_speed (s : CPlayerComponent ℝ) :
    (airControlDir Real.sqrt s).x * airControlSpeed Real.sqrt s = s.playerVelocity.x ∧
    (airControlDir Real.sqrt s).y * airControlSpeed Real.sqrt s = s.playerVelocity.y ∧
    (airControlDir Real.sqrt s).z * airControlSpeed Real.sqrt s = 0 := by
  simp only [airControlDir, airControlSpeed, Vec3.Normalize, Vec3.GetLength, mul_zero, add_zero,
    zero_mul]
  by_cases h : Real.sqrt (s.playerVelocity.x * s.playerVelocity.x
      + s.playerVelocity.y * s.playerVelocity.y) = 0
  · have h0 : s.playerVelocity.x * s.playerVelocity.x
        + s.playerVelocity.y * s.playerVelocity.y = 0 := by
      have hnn : 0 ≤ s.playerVelocity.x * s.playerVelocity.x
          + s.playerVelocity.y * s.playerVelocity.y :=
        add_nonneg (mul_self_nonneg _) (mul_self_nonneg _)
      exact (Real.sqrt_eq_zero hnn).mp h
    have hx : s.playerVelocity.x = 0 := by nlinarith [mul_self_nonneg s.playerVelocity.y]
    have hy : s.playerVelocity.y = 0 := by nlinarith [mul_self_nonneg s.playerVelocity.x]
    rw [h, hx, hy]
    simp
  · refine ⟨?_, ?_, trivial⟩
    · field_simp
    · field_simp

theorem airControlSpeed_eq (s : CPlayerComponent ℝ) :
    airControlSpeed Real.sqrt s = horizontalSpeed Real.sqrt s := by
  simp only [airControlSpeed, horizontalSpeed, Vec3.GetLength, mul_zero, add_zero]

theorem airControlDir_components (s : CPlayerComponent ℝ) :
    (airControlDir Real.sqrt s).x = s.playerVelocity.x * (1 / airControlSpeed Real.sqrt s) ∧
    (airControlDir Real.sqrt s).y = s.playerVelocity.y * (1 / airControlSpeed Real.sqrt s) ∧
    (airControlDir Real.sqrt s).z = 0 := by
  refine ⟨rfl, rfl, ?_⟩
  show (0 : ℝ) * _ = 0
  exact zero_mul _

theorem airControlTurned_lengthSq_pos (s : CPlayerComponent ℝ) (wishdir : Vec3 ℝ)
    (hz : wishdir.z = 0) (hac : 0 ≤ s.airControl) (hft : 0 ≤ s.m_frametime)
    (hdot : (airControlDir Real.sqrt s).dot wishdir > 0) :
    (airControlTurned Real.sqrt s wishdir).z = 0 ∧
    0 < (airControlTurned Real.sqrt s wishdir).x * (airControlTurned Real.sqrt s wishdir).x
      + (airControlTurned Real.sqrt s wishdir).y * (airControlTurned Real.sqrt s wishdir).y
      + (airControlTurned Real.sqrt s wishdir).z * (airControlTurned Real.sqrt s wishdir).z := by
  obtain ⟨hx, hy, hzz⟩ := airControlDir_mul_speed s
  obtain ⟨cx, cy, cz⟩ := airControlDir_components s
  have hsp0 : 0 ≤ airControlSpeed Real.sqrt s := Real.sqrt_nonneg _
  have hk : 0 ≤ airControlK Real.sqrt s wishdir := by
    unfold airControlK
    have h1 : 0 ≤ (airControlDir Real.sqrt s).dot wishdir * (airControlDir Real.sqrt s).dot wishdir :=
      mul_self_nonneg _
    have h2 : s.airControl * (airControlDir Real.sqrt s).dot wishdir
        * (airControlDir Real.sqrt s).dot wishdir * s.m_frametime
        = s.airControl * ((airControlDir Real.sqrt s).dot wishdir
          * (airControlDir Real.sqrt s).dot wishdir) * s.m_frametime := by ring
    rw [h2]
    exact mul_nonneg (by norm_num) (mul_nonneg (mul_nonneg hac h1) hft)
  have hspne : airControlSpeed Real.sqrt s ≠ 0 := by
    intro h0
    have : (airControlDir Real.sqrt s).dot wishdir = 0 := by
      simp only [Vec3.dot, cx, cy, cz, h0, div_zero, mul_zero, zero_mul, add_zero]
    linarith
  have hsp : 0 < airControlSpeed Real.sqrt s := lt_of_le_of_ne hsp0 (Ne.symm hspne)
  have hvw : 0 < s.playerVelocity.x * wishdir.x + s.playerVelocity.y * wishdir.y := by
    have e : s.playerVelocity.x * wishdir.x + s.playerVelocity.y * wishdir.y
        = (airControlDir Real.sqrt s).dot wishdir * airControlSpeed Real.sqrt s := by
      simp only [Vec3.dot, cz, hz, mul_zero, add_zero]
      rw [← hx, ← hy]
      ring
    rw [e]
    exact mul_pos hdot hsp
  have hL : 0 < s.playerVelocity.x * s.playerVelocity.x
      + s.playerVelocity.y * s.playerVelocity.y := by
    have : 0 < Real.sqrt (s.playerVelocity.x * s.playerVelocity.x
        + s.playerVelocity.y * s.playerVelocity.y) := by
      have h := hsp
      simp only [airControlSpeed, Vec3.GetLength, mul_zero, add_zero] at h
      exact h
    exact Real.sqrt_pos.mp this
  have tz : (airControlTurned Real.sqrt s wishdir).z = 0 := by
    show (airControlDir Real.sqrt s).z * airControlSpeed Real.sqrt s
      + wishdir.z * airControlK Real.sqrt s wishdir = 0
    rw [hzz, hz]
    ring
  have tx : (airControlTurned Real.sqrt s wishdir).x
      = s.playerVelocity.x + wishdir.x * airControlK Real.sqrt s wishdir := by
    show (airControlDir Real.sqrt s).x * airControlSpeed Real.sqrt s
      + wishdir.x * airControlK Real.sqrt s wishdir = _
    rw [hx]
  have ty : (airControlTurned Real.sqrt s wishdir).y
      = s.playerVelocity.y + wishdir.y * airControlK Real.sqrt s wishdir := by
    show (airControlDir Real.sqrt s).y * airControlSpeed Real.sqrt s
      + wishdir.y * airControlK Real.sqrt s wishdir = _
    rw [hy]
  refine ⟨tz, ?_⟩
  rw [tz, tx, ty]
  generalize airControlK Real.sqrt s wishdir = k at hk
  nlinarith [mul_nonneg hk hvw.le, mul_self_nonneg (wishdir.x * k), mul_self_nonneg (wishdir.y * k)]

/-- C18: for every velocity, every horizontal wish direction (`z = 0`, of unit length or
not), every wish speed, a frame time `≥ 0` and `airControl ≥ 0`, `AirControl` leaves
`playerVelocity.z` and the horizontal speed `sqrt(vx^2 + vy^2)` as they were; and when
`forwardMove = 0` or the wish speed is 0 it returns the component unchanged. -/
theorem AirControl_keeps_speed (s : CPlayerComponent ℝ) (wishdir : Vec3 ℝ) (wishspeed : ℝ)
    (hz : wishdir.z = 0) (hac : 0 ≤ s.airControl) (hft : 0 ≤ s.m_frametime) :
    (AirControl Real.sqrt s wishdir wishspeed).playerVelocity.z = s.playerVelocity.z ∧
    horizontalSpeed Real.sqrt (AirControl Real.sqrt s wishdir wishspeed)
      = horizontalSpeed Real.sqrt s ∧
    ((s._cmd.forwardMove = 0 ∨ wishspeed = 0) →
      AirControl Real.sqrt s wishdir wishspeed = s) := by
  refine ⟨?_, ?_, ?_⟩
  · rw [AirControl_playerVelocity]
    split
    · rfl
    · split <;> rfl
  · unfold horizontalSpeed
    rw [AirControl_playerVelocity]
    by_cases hearly : s._cmd.forwardMove = 0 ∨ wishspeed = 0
    · simp only [if_pos hearly]
    · by_cases hdot : (airControlDir Real.sqrt s).dot wishdir > 0
      · simp only [if_neg hearly, if_pos hdot]
        obtain ⟨tz, hM⟩ := airControlTurned_lengthSq_pos s wishdir hz hac hft hdot
        have hn := Normalize_lengthSq (airControlTurned Real.sqrt s wishdir) hM
        have hnz : ((airControlTurned Real.sqrt s wishdir).Normalize Real.sqrt).z = 0 := by
          show (airControlTurned Real.sqrt s wishdir).z * _ = 0
          rw [tz, zero_mul]
        rw [hnz, mul_zero, add_zero] at hn
        rw [sqrt_scale _ _ (airControlSpeed Real.sqrt s)
          (show 0 ≤ airControlSpeed Real.sqrt s from Real.sqrt_nonneg _), hn, Real.sqrt_one,
          mul_one]
        exact airControlSpeed_eq s
      · simp only [if_neg hearly, if_neg hdot]
        rw [(airControlDir_mul_speed s).1, (airControlDir_mul_speed s).2.1]
  · intro h
    unfold AirControl
    simp only [if_pos h]

/-- C18 (witness): an airborne player moving at `(3, 4, 7)` with `forwardMove = 1`,
steering towards `(0, 1, 0)` with wish speed 1000. -/
theorem AirControl_keeps_speed_witness :
    (AirControl Real.sqrt (airSteering : CPlayerComponent ℝ) ⟨0, 1, 0⟩ 1000).playerVelocity.z
      = 7 ∧
    horizontalSpeed Real.sqrt (AirControl Real.sqrt (airSteering : CPlayerComponent ℝ) ⟨0, 1, 0⟩ 1000)
      = horizontalSpeed Real.sqrt (airSteering : CPlayerComponent ℝ) :=
  ⟨(AirControl_keeps_speed airSteering ⟨0, 1, 0⟩ 1000 rfl
      (by show (0 : ℝ) ≤ 1; norm_num) (by show (0 : ℝ) ≤ 16 / 1000; norm_num)).1,
   (AirControl_keeps_speed airSteering ⟨0, 1, 0⟩ 1000 rfl
      (by show (0 : ℝ) ≤ 1; norm_num) (by show (0 : ℝ) ≤ 16 / 1000; norm_num)).2.1⟩

/-! ### Air strafing -/

theorem Accelerate_kept (s : CPlayerComponent K) (wishdir : Vec3 K) (wishspeed accel : K) :
    (Accelerate s wishdir wishspeed accel)._cmd = s._cmd ∧
    (Accelerate s wishdir wishspeed accel).gravity = s.gravity ∧
    (Accelerate s wishdir wishspeed accel).m_frametime = s.m_frametime := by
  rw [Accelerate_frame]
  exact ⟨rfl, rfl, rfl⟩

theorem strafing_cmd (s : CPlayerComponent K)
    (hF : s.hasFlag EInputFlag.MoveForward = s.hasFlag EInputFlag.MoveBack)
    (hLR : s.hasFlag EInputFlag.MoveRight ≠ s.hasFlag EInputFlag.MoveLeft) :
    (SetMovementDir s)._cmd.forwardMove = 0 ∧
    ((SetMovementDir s)._cmd.rightMove = 1 ∨ (SetMovementDir s)._cmd.rightMove = -1) ∧
    airStrafing s = true := by
  obtain ⟨h1, h2⟩ := SetMovementDir_cmd s
  have hf : (SetMovementDir s)._cmd.forwardMove = 0 := by
    rw [h1, hF]
    simp [axisValue]
  have hr : (SetMovementDir s)._cmd.rightMove = 1 ∨ (SetMovementDir s)._cmd.rightMove = -1 := by
    rw [h2]
    unfold axisValue
    rw [if_neg hLR]
    cases s.hasFlag EInputFlag.MoveRight
    · right; rfl
    · left; rfl
  refine ⟨hf, hr, ?_⟩
  unfold airStrafing
  have hne : (SetMovementDir s)._cmd.rightMove ≠ 0 := by
    rcases hr with h | h <;> rw [h] <;> norm_num
  simp [hf, hne]

theorem AirMove_strafing_velocity (sqrt : K → K) (s : CPlayerComponent K)
    (hF : s.hasFlag EInputFlag.MoveForward = s.hasFlag EInputFlag.MoveBack)
    (hLR : s.hasFlag EInputFlag.MoveRight ≠ s.hasFlag EInputFlag.MoveLeft) :
    (AirMove sqrt s).playerVelocity
      = { (Accelerate { SetMovementDir s with moveDirectionNorm := (wishVector s).Normalize sqrt }
            ((wishVector s).Normalize sqrt) (airWishSpeed sqrt s)
            (airAccel sqrt s)).playerVelocity with
          z := (Accelerate
              { SetMovementDir s with moveDirectionNorm := (wishVector s).Normalize sqrt }
              ((wishVector s).Normalize sqrt) (airWishSpeed sqrt s)
              (airAccel sqrt s)).playerVelocity.z - s.gravity * s.m_frametime } := by
  obtain ⟨hf, _, _⟩ := strafing_cmd s hF hLR
  obtain ⟨k1, k2, k3⟩ := Accelerate_kept
    { SetMovementDir s with moveDirectionNorm := (wishVector s).Normalize sqrt }
    ((wishVector s).Normalize sqrt) (airWishSpeed sqrt s) (airAccel sqrt s)
  have hnoop : AirControl sqrt
      (Accelerate { SetMovementDir s with moveDirectionNorm := (wishVector s).Normalize sqrt }
        ((wishVector s).Normalize sqrt) (airWishSpeed sqrt s) (airAccel sqrt s))
      ((wishVector s).Normalize sqrt) (airWishSpeed2 sqrt s)
      = Accelerate { SetMovementDir s with moveDirectionNorm := (wishVector s).Normalize sqrt }
        ((wishVector s).Normalize sqrt) (airWishSpeed sqrt s) (airAccel sqrt s) := by
    unfold AirControl
    rw [if_pos (Or.inl (by rw [k1]; exact hf))]
  rw [AirMove_eq]
  simp only [hnoop, ite_self, k2, k3]
  rfl

theorem wishVector_strafing (s : CPlayerComponent ℝ)
    (hF : s.hasFlag EInputFlag.MoveForward = s.hasFlag EInputFlag.MoveBack)
    (hLR : s.hasFlag EInputFlag.MoveRight ≠ s.hasFlag EInputFlag.MoveLeft)
    (hcol : s.worldRotation.m00 * s.worldRotation.m00
      + s.worldRotation.m10 * s.worldRotation.m10 = 1)
    (hm20 : s.worldRotation.m20 = 0) :
    (wishVector s).z = 0 ∧
    (wishVector s).x * (wishVector s).x + (wishVector s).y * (wishVector s).y = 1 := by
  obtain ⟨hf, hr, _⟩ := strafing_cmd s hF hLR
  have e : wishVector s = s.worldRotation.mulVec
      ⟨(SetMovementDir s)._cmd.rightMove, (SetMovementDir s)._cmd.forwardMove, 0⟩ := rfl
  rw [e, hf]
  simp only [Matrix33.mulVec, mul_zero, add_zero, hm20, zero_mul]
  refine ⟨trivial, ?_⟩
  rcases hr with h | h <;> rw [h] <;> linear_combination hcol

theorem Normalize_of_unit (v : Vec3 ℝ) (h : v.x * v.x + v.y * v.y + v.z * v.z = 1) :
    v.Normalize Real.sqrt = v ∧ v.GetLength Real.sqrt = 1 := by
  unfold Vec3.Normalize Vec3.GetLength
  rw [h, Real.sqrt_one]
  simp

theorem AirMove_strafing_speed (s : CPlayerComponent ℝ)
    (hF : s.hasFlag EInputFlag.MoveForward = s.hasFlag EInputFlag.MoveBack)
    (hLR : s.hasFlag EInputFlag.MoveRight ≠ s.hasFlag EInputFlag.MoveLeft)
    (hms : s.m_moveSpeed = 1000) (hss : s.sideStrafeSpeed = 10)
    (hsa : s.sideStrafeAcceleration = 5)
    (hvx : s.playerVelocity.x = 0) (hvy : s.playerVelocity.y = 0) (hft : 0 ≤ s.m_frametime)
    (hcol : s.worldRotation.m00 * s.worldRotation.m00
      + s.worldRotation.m10 * s.worldRotation.m10 = 1)
    (hm20 : s.worldRotation.m20 = 0) :
    horizontalSpeed Real.sqrt (AirMove Real.sqrt s) = min (5 * s.m_frametime * 10) 10 := by
  obtain ⟨az, axy⟩ := wishVector_strafing s hF hLR hcol hm20
  obtain ⟨_, _, hstrafe⟩ := strafing_cmd s hF hLR
  have hunit : (wishVector s).x * (wishVector s).x + (wishVector s).y * (wishVector s).y
      + (wishVector s).z * (wishVector s).z = 1 := by
    rw [az, mul_zero, add_zero]
    exact axy
  obtain ⟨hN, hG⟩ := Normalize_of_unit (wishVector s) hunit
  have hws : airWishSpeed Real.sqrt s = 10 := by
    unfold airWishSpeed airWishSpeed2
    simp only [hstrafe, if_true, hG, hms, hss]
    norm_num
  have hacc : airAccel Real.sqrt s = 5 := by
    unfold airAccel
    simp only [hstrafe, if_true, hsa]
  have hdot : s.playerVelocity.dot (wishVector s) = 0 := by
    simp only [Vec3.dot, hvx, hvy, az, zero_mul, mul_zero, add_zero]
  have hA : (Accelerate
      { SetMovementDir s with moveDirectionNorm := wishVector s }
      (wishVector s) 10 5).playerVelocity
      = ⟨(if 5 * s.m_frametime * 10 > 10 then 10 else 5 * s.m_frametime * 10) * (wishVector s).x,
         (if 5 * s.m_frametime * 10 > 10 then 10 else 5 * s.m_frametime * 10) * (wishVector s).y,
         s.playerVelocity.z⟩ := by
    rw [Accelerate_playerVelocity]
    have p1 : ({ SetMovementDir s with moveDirectionNorm := wishVector s } :
        CPlayerComponent ℝ).playerVelocity = s.playerVelocity := rfl
    have p2 : ({ SetMovementDir s with moveDirectionNorm := wishVector s } :
        CPlayerComponent ℝ).m_frametime = s.m_frametime := rfl
    rw [p1, p2, hdot, hvx, hvy]
    have hpos : ¬ ((10 : ℝ) - 0 ≤ 0) := by norm_num
    rw [if_neg hpos]
    simp only [sub_zero, zero_add]
  have hv := AirMove_strafing_velocity Real.sqrt s hF hLR
  rw [hws, hacc, hN, hA] at hv
  unfold horizontalSpeed
  rw [hv]
  have hnn : 0 ≤ (if 5 * s.m_frametime * 10 > 10 then (10 : ℝ) else 5 * s.m_frametime * 10) := by
    split
    · norm_num
    · positivity
  have hscale := sqrt_scale (wishVector s).x (wishVector s).y _ hnn
  rw [axy, Real.sqrt_one, mul_one] at hscale
  have hform : ∀ a b c : ℝ, c * a * (c * a) + c * b * (c * b) = a * c * (a * c) + b * c * (b * c) := by
    intro a b c
    ring
  show Real.sqrt (_ * (wishVector s).x * (_ * (wishVector s).x)
    + _ * (wishVector s).y * (_ * (wishVector s).y)) = _
  rw [hform, hscale]
  by_cases h : 5 * s.m_frametime * 10 > 10
  · rw [if_pos h, min_eq_right (le_of_lt h)]
  · rw [if_neg h, min_eq_left (not_lt.mp h)]

/-- C20: in `AirMove` with no net forward or back input and exactly one of `MoveLeft` and
`MoveRight` effective, `Accelerate` is called with
`wishspeed = min(|wishdir| × m_moveSpeed, sideStrafeSpeed)` and
`accel = sideStrafeAcceleration`, and the velocity afterwards is that of this call with
gravity applied to `z`. With `m_moveSpeed = 1000`, `sideStrafeSpeed = 10`,
`sideStrafeAcceleration = 5`, zero horizontal velocity, a frame time `≥ 0` and a world
rotation that keeps the right axis horizontal and of unit length, the horizontal speed
after the frame is `min(5 × frameTime × 10, 10)`, at most 10. -/
theorem AirMove_side_strafe (s : CPlayerComponent ℝ)
    (hF : s.hasFlag EInputFlag.MoveForward = s.hasFlag EInputFlag.MoveBack)
    (hLR : s.hasFlag EInputFlag.MoveRight ≠ s.hasFlag EInputFlag.MoveLeft) :
    airWishSpeed Real.sqrt s
      = min ((wishVector s).GetLength Real.sqrt * s.m_moveSpeed) s.sideStrafeSpeed ∧
    airAccel Real.sqrt s = s.sideStrafeAcceleration ∧
    (AirMove Real.sqrt s).playerVelocity
      = { (Accelerate
            { SetMovementDir s with moveDirectionNorm := (wishVector s).Normalize Real.sqrt }
            ((wishVector s).Normalize Real.sqrt) (airWishSpeed Real.sqrt s)
            (airAccel Real.sqrt s)).playerVelocity with
          z := (Accelerate
              { SetMovementDir s with moveDirectionNorm := (wishVector s).Normalize Real.sqrt }
              ((wishVector s).Normalize Real.sqrt) (airWishSpeed Real.sqrt s)
              (airAccel Real.sqrt s)).playerVelocity.z - s.gravity * s.m_frametime } ∧
    (s.m_moveSpeed = 1000 → s.sideStrafeSpeed = 10 → s.sideStrafeAcceleration = 5 →
      s.playerVelocity.x = 0 → s.playerVelocity.y = 0 → 0 ≤ s.m_frametime →
      s.worldRotation.m00 * s.worldRotation.m00
        + s.worldRotation.m10 * s.worldRotation.m10 = 1 →
      s.worldRotation.m20 = 0 →
      horizontalSpeed Real.sqrt (AirMove Real.sqrt s) = min (5 * s.m_frametime * 10) 10 ∧
      horizontalSpeed Real.sqrt (AirMove Real.sqrt s) ≤ 10) := by
  obtain ⟨_, _, hstrafe⟩ := strafing_cmd s hF hLR
  refine ⟨?_, ?_, AirMove_strafing_velocity Real.sqrt s hF hLR, ?_⟩
  · unfold airWishSpeed
    simp only [hstrafe, if_true]
    have e : airWishSpeed2 Real.sqrt s = (wishVector s).GetLength Real.sqrt * s.m_moveSpeed := rfl
    rw [← e]
    by_cases h : airWishSpeed2 Real.sqrt s > s.sideStrafeSpeed
    · rw [if_pos h, min_eq_right (le_of_lt h)]
    · rw [if_neg h, min_eq_left (not_lt.mp h)]
  · unfold airAccel
    simp only [hstrafe, if_true]
  · intro hms hss hsa hvx hvy hft hcol hm20
    have h := AirMove_strafing_speed s hF hLR hms hss hsa hvx hvy hft hcol hm20
    exact ⟨h, by rw [h]; exact min_le_right _ _⟩

/-- C20 (witness): an airborne player at rest with only `MoveRight` held, the identity
world rotation, the header's constants and a frame time of 0.016: the horizontal speed
after the frame is `min(5 × 0.016 × 10, 10)`. -/
theorem AirMove_side_strafe_witness :
    airWishSpeed Real.sqrt (airStrafingRight : CPlayerComponent ℝ)
      = min ((wishVector (airStrafingRight : CPlayerComponent ℝ)).GetLength Real.sqrt * 1000) 10 ∧
    airAccel Real.sqrt (airStrafingRight : CPlayerComponent ℝ) = 5 ∧
    horizontalSpeed Real.sqrt (AirMove Real.sqrt (airStrafingRight : CPlayerComponent ℝ))
      = min (5 * (16 / 1000) * 10) 10 :=
  ⟨(AirMove_side_strafe airStrafingRight (by decide) (by decide)).1,
   (AirMove_side_strafe airStrafingRight (by decide) (by decide)).2.1,
   ((AirMove_side_strafe airStrafingRight (by decide) (by decide)).2.2.2 rfl rfl rfl rfl rfl
      (by show (0 : ℝ) ≤ 16 / 1000; norm_num)
      (by show (1 : ℝ) * 1 + 0 * 0 = 1; norm_num) rfl).1⟩

/-! ### The synthetic events of `NetSerialize` -/

theorem NetSerialize_events (s : CPlayerComponent K) (inputFlags : Nat)
    (lookOrientation : Ang3 K) :
    NetSerialize s ⟨true, inputFlags, lookOrientation⟩ InputAspect
      = { handleEvents { s with m_inputFlags := inputFlags }
            (syntheticEvents s.m_inputFlags inputFlags) with
          m_lookOrientation := lookOrientation } := by
  unfold NetSerialize syntheticEvents handleEvents
  simp only [if_true]
  by_cases h : (s.m_inputFlags ^^^ inputFlags) &&& s.m_inputFlags = 0
  · simp only [h, ne_eq, not_true_eq_false, if_false, List.append_nil, List.foldl_nil]
  · simp only [ne_eq, h, not_false_eq_true, if_true, List.singleton_append, List.foldl_cons,
      List.foldl_nil]

theorem changed_and_prev_testBit (prev new i : Nat) :
    ((prev ^^^ new) &&& prev).testBit i = (prev.testBit i && !new.testBit i) := by
  rw [Nat.testBit_and, Nat.testBit_xor]
  cases prev.testBit i <;> cases new.testBit i <;> rfl

/-- C21 (the code at the failing inputs): when `NetSerialize` reads the input aspect it
handles exactly the events of `syntheticEvents`, and the mask of its press event is
`changedKeys & prevInputFlags`, whose bits are the flags set in the previous mask and clear
in the received one. With the previous mask empty and `MoveLeft` received, no event is
raised at all, though `MoveLeft` is newly set; with `MoveLeft` in the previous mask and the
empty mask received, a press event carrying `MoveLeft` is raised (followed by the
release event carrying `MoveLeft`), though no flag is newly set. -/
theorem NetSerialize_press_mask (s : CPlayerComponent K) (prev new : Nat)
    (lookOrientation : Ang3 K) :
    NetSerialize { s with m_inputFlags := prev } ⟨true, new, lookOrientation⟩ InputAspect
      = { handleEvents { s with m_inputFlags := new } (syntheticEvents prev new) with
          m_lookOrientation := lookOrientation } ∧
    (∀ i : Nat, ((prev ^^^ new) &&& prev).testBit i = (prev.testBit i && !new.testBit i)) ∧
    syntheticEvents 0 EInputFlag.MoveLeft = [] ∧
    syntheticEvents EInputFlag.MoveLeft 0
      = [(EInputFlag.MoveLeft, eAAM_OnPress), (EInputFlag.MoveLeft, eAAM_OnRelease)] := by
  refine ⟨NetSerialize_events { s with m_inputFlags := prev } new lookOrientation,
    changed_and_prev_testBit prev new, ?_, ?_⟩
  · decide
  · decide

end CPlayerComponent

/-! ### `MovingAverage::Reset` -/

namespace MovingAverage

variable {T : Type} [LinearOrderedField T]

theorem Push_Reset (f : MovingAverage T) (v : T) :
    Push (Reset f) v
      = { m_values := List.replicate SAMPLES_COUNT v
          m_cursor := 0
          m_accumulator := (List.replicate SAMPLES_COUNT v).foldl (fun acc x => acc + x) 0 } := by
  unfold Push
  rw [if_pos (show (Reset f).m_cursor = SAMPLES_COUNT from rfl)]

/-- C22 (as amended): in exact arithmetic, for every filter state and every value `v`,
`Reset` followed by one `Push(v)` makes `Get` return `v`; after `Reset` and one or more
pushes the filter, and with it what `Get` returns, is the same whatever the filter held
before the `Reset`; with no push after the `Reset`, `Get` returns what it returned before
the `Reset`, as `Reset` moves the cursor and keeps the accumulator. -/
theorem Reset_discards_history (f g : MovingAverage T) (v : T) (rest : List T) :
    Get (Push (Reset f) v) = v ∧
    pushAll (Reset f) (v :: rest) = pushAll (Reset g) (v :: rest) ∧
    Get (pushAll (Reset f) (v :: rest)) = Get (pushAll (Reset g) (v :: rest)) ∧
    Get (pushAll (Reset f) []) = Get f := by
  have h : pushAll (Reset f) (v :: rest) = pushAll (Reset g) (v :: rest) := by
    show pushAll (Push (Reset f) v) rest = pushAll (Push (Reset g) v) rest
    rw [Push_Reset, Push_Reset]
  refine ⟨?_, h, by rw [h], rfl⟩
  rw [Push_Reset]
  simp only [Get, SAMPLES_COUNT, List.replicate, List.foldl_cons, List.foldl_nil, Nat.cast_ofNat]
  field_simp
  ring

/-- C22 (counterexample): a filter that was given the sample 100 and a filter that was
given the sample 7 are both reset; with no push after the `Reset`, `Get` returns 100 for
the first and 7 for the second, the averages from before the `Reset`. -/
theorem Get_after_Reset_without_push :
    Get (pushAll (Reset (Push (new : MovingAverage ℚ) 100)) []) = 100 ∧
    Get (pushAll (Reset (Push (new : MovingAverage ℚ) 7)) []) = 7 ∧
    Get (pushAll (Reset (Push (new : MovingAverage ℚ) 100)) [])
      ≠ Get (pushAll (Reset (Push (new : MovingAverage ℚ) 7)) []) := by
  have h100 : Get (pushAll (Reset (Push (new : MovingAverage ℚ) 100)) []) = 100 := by
    show Get (Reset (Push (Reset (new : MovingAverage ℚ)) 100)) = 100
    rw [Push_Reset]
    simp only [Get, Reset, SAMPLES_COUNT, List.replicate, List.foldl_cons, List.foldl_nil,
      Nat.cast_ofNat]
    norm_num
  have h7 : Get (pushAll (Reset (Push (new : MovingAverage ℚ) 7)) []) = 7 := by
    show Get (Reset (Push (Reset (new : MovingAverage ℚ)) 7)) = 7
    rw [Push_Reset]
    simp only [Get, Reset, SAMPLES_COUNT, List.replicate, List.foldl_cons, List.foldl_nil,
      Nat.cast_ofNat]
    norm_num
  refine ⟨h100, h7, ?_⟩
  rw [h100, h7]
  norm_num

end MovingAverage

namespace CPlayerComponent

variable {K : Type} [LinearOrderedField K]

/-! ### The mouse delta within one `Update` -/

theorem Accelerate_mouse (s : CPlayerComponent K) (wishdir : Vec3 K) (wishspeed accel : K) :
    (Accelerate s wishdir wishspeed accel).m_mouseDeltaRotation = s.m_mouseDeltaRotation := by
  rw [Accelerate_frame]

theorem AirControl_mouse (sqrt : K → K) (s : CPlayerComponent K) (wishdir : Vec3 K)
    (wishspeed : K) :
    (AirControl sqrt s wishdir wishspeed).m_mouseDeltaRotation = s.m_mouseDeltaRotation := by
  rw [AirControl_frame]

theorem GroundMove_mouse (sqrt : K → K) (s : CPlayerComponent K) :
    (GroundMove sqrt s).m_mouseDeltaRotation = s.m_mouseDeltaRotation := by
  have aux : ∀ b : Bool,
      (GroundMove sqrt { s with wishJump := b }).m_mouseDeltaRotation
        = s.m_mouseDeltaRotation := by
    intro b
    unfold GroundMove
    simp only []
    rw [Accelerate_frame]
    cases b <;> rfl
  exact aux s.wishJump

theorem AirMove_mouse (sqrt : K → K) (s : CPlayerComponent K) :
    (AirMove sqrt s).m_mouseDeltaRotation = s.m_mouseDeltaRotation := by
  unfold AirMove
  simp only [apply_ite CPlayerComponent.m_mouseDeltaRotation, AirControl_mouse,
    Accelerate_mouse, ite_self]
  rfl

theorem Update_look (sqrt : K → K) (orient : Ang3 K → Matrix33 K) (s : CPlayerComponent K)
    (frameTime : K) :
    (Update sqrt orient s frameTime).m_lookOrientation
      = (updateLook orient s frameTime).m_lookOrientation ∧
    (Update sqrt orient s frameTime).m_mouseDeltaRotation
      = (updateLook orient s frameTime).m_mouseDeltaRotation := by
  rw [Update_eq]
  cases s.onGround
  · exact ⟨AirMove_lookOrientation sqrt _, AirMove_mouse sqrt _⟩
  · exact ⟨(GroundMove_fields sqrt _).2.2.2.2.2, GroundMove_mouse sqrt _⟩

theorem CLAMP_CLAMP (X mn mx : K) (h : mn ≤ mx) : CLAMP (CLAMP X mn mx) mn mx = CLAMP X mn mx :=
  CLAMP_of_mem (CLAMP_mem h).1 (CLAMP_mem h).2

theorem UpdateCamera_look (s : CPlayerComponent K) (frameTime : K) :
    (UpdateCamera s frameTime).m_lookOrientation.x
      = s.m_lookOrientation.x + s.m_mouseDeltaRotation.x * s.m_rotationSpeed ∧
    (UpdateCamera s frameTime).m_lookOrientation.y
      = CLAMP (s.m_lookOrientation.y + s.m_mouseDeltaRotation.y * s.m_rotationSpeed)
          (-(84 / 100)) (15 / 10) ∧
    (UpdateCamera s frameTime).m_mouseDeltaRotation = Vec2.ZERO := by
  have aux : ∀ b : Bool,
      (UpdateCamera { s with m_bSliding := b } frameTime).m_lookOrientation.x
        = s.m_lookOrientation.x + s.m_mouseDeltaRotation.x * s.m_rotationSpeed ∧
      (UpdateCamera { s with m_bSliding := b } frameTime).m_lookOrientation.y
        = CLAMP (s.m_lookOrientation.y + s.m_mouseDeltaRotation.y * s.m_rotationSpeed)
            (-(84 / 100)) (15 / 10) ∧
      (UpdateCamera { s with m_bSliding := b } frameTime).m_mouseDeltaRotation = Vec2.ZERO := by
    intro b
    cases b <;> exact ⟨rfl, rfl, rfl⟩
  exact aux s.m_bSliding

theorem updateLook_local (orient : Ang3 K → Matrix33 K) (s : CPlayerComponent K)
    (frameTime : K) :
    (updateLook orient { s with isLocalClient := true, m_rotationSpeed := 2 / 1000 }
        frameTime).m_lookOrientation.x
      = s.m_lookOrientation.x + s.m_mouseDeltaRotation.x * (2 / 1000) ∧
    (updateLook orient { s with isLocalClient := true, m_rotationSpeed := 2 / 1000 }
        frameTime).m_lookOrientation.y
      = CLAMP (s.m_lookOrientation.y + s.m_mouseDeltaRotation.y * (2 / 1000))
          (-(84 / 100)) (15 / 10) ∧
    (updateLook orient { s with isLocalClient := true, m_rotationSpeed := 2 / 1000 }
        frameTime).m_mouseDeltaRotation = Vec2.ZERO := by
  have hlim : (-(84 / 100) : K) ≤ 15 / 10 := by norm_num
  by_cases hdead : s.m_mouseDeltaRotation.IsEquivalent Vec2.ZERO MOUSE_DELTA_TRESHOLD = true
  · have e : UpdateLookDirectionRequest
        { s with isLocalClient := true, m_rotationSpeed := 2 / 1000, m_frametime := frameTime }
        frameTime
        = { s with
            isLocalClient := true
            m_rotationSpeed := 2 / 1000
            m_frametime := frameTime
            m_horizontalAngularVelocity := (s.m_mouseDeltaRotation.x * (2 / 1000)) / frameTime
            m_averagedHorizontalAngularVelocity :=
              s.m_averagedHorizontalAngularVelocity.Push
                ((s.m_mouseDeltaRotation.x * (2 / 1000)) / frameTime) } := by
      unfold UpdateLookDirectionRequest
      simp only [hdead, if_true]
    have e2 : updateLook orient { s with isLocalClient := true, m_rotationSpeed := 2 / 1000 }
        frameTime
        = UpdateCamera (UpdateLookRotationZ orient (UpdateLookDirectionRequest
            { s with isLocalClient := true, m_rotationSpeed := 2 / 1000,
                     m_frametime := frameTime } frameTime) frameTime) frameTime := by
      unfold updateLook
      simp only []
      rw [e]
      rfl
    rw [e2, e]
    exact UpdateCamera_look _ frameTime
  · have e : UpdateLookDirectionRequest
        { s with isLocalClient := true, m_rotationSpeed := 2 / 1000, m_frametime := frameTime }
        frameTime
        = { s with
            isLocalClient := true
            m_rotationSpeed := 2 / 1000
            m_frametime := frameTime
            m_horizontalAngularVelocity := (s.m_mouseDeltaRotation.x * (2 / 1000)) / frameTime
            m_averagedHorizontalAngularVelocity :=
              s.m_averagedHorizontalAngularVelocity.Push
                ((s.m_mouseDeltaRotation.x * (2 / 1000)) / frameTime)
            m_lookOrientation :=
              ⟨s.m_lookOrientation.x + s.m_mouseDeltaRotation.x * (2 / 1000),
               CLAMP (s.m_lookOrientation.y + s.m_mouseDeltaRotation.y * (2 / 1000))
                 (-(84 / 100)) (15 / 10), 0⟩
            m_mouseDeltaRotation := Vec2.ZERO } := by
      unfold UpdateLookDirectionRequest
      simp only [hdead, Bool.false_eq_true, if_false]
      rfl
    have e2 : updateLook orient { s with isLocalClient := true, m_rotationSpeed := 2 / 1000 }
        frameTime
        = UpdateCamera (UpdateLookRotationZ orient (UpdateLookDirectionRequest
            { s with isLocalClient := true, m_rotationSpeed := 2 / 1000,
                     m_frametime := frameTime } frameTime) frameTime) frameTime := by
      unfold updateLook
      simp only []
      rw [e]
      rfl
    rw [e2, e]
    obtain ⟨c1, c2, c3⟩ := UpdateCamera_look (UpdateLookRotationZ orient
      { s with
        isLocalClient := true
        m_rotationSpeed := 2 / 1000
        m_frametime := frameTime
        m_horizontalAngularVelocity := (s.m_mouseDeltaRotation.x * (2 / 1000)) / frameTime
        m_averagedHorizontalAngularVelocity :=
          s.m_averagedHorizontalAngularVelocity.Push
            ((s.m_mouseDeltaRotation.x * (2 / 1000)) / frameTime)
        m_lookOrientation :=
          ⟨s.m_lookOrientation.x + s.m_mouseDeltaRotation.x * (2 / 1000),
           CLAMP (s.m_lookOrientation.y + s.m_mouseDeltaRotation.y * (2 / 1000))
             (-(84 / 100)) (15 / 10), 0⟩
        m_mouseDeltaRotation := Vec2.ZERO } frameTime) frameTime
    rw [c1, c2, c3]
    refine ⟨?_, ?_, rfl⟩
    · show s.m_lookOrientation.x + s.m_mouseDeltaRotation.x * (2 / 1000)
        + (0 : K) * (2 / 1000) = _
      rw [zero_mul, add_zero]
    · show CLAMP (CLAMP (s.m_lookOrientation.y + s.m_mouseDeltaRotation.y * (2 / 1000))
          (-(84 / 100)) (15 / 10) + (0 : K) * (2 / 1000)) (-(84 / 100)) (15 / 10) = _
      rw [zero_mul, add_zero, CLAMP_CLAMP _ _ _ hlim]

/-- C23: on the local client, for every accumulated mouse delta `(dx, dy)`, inside the
dead zone or not, and every prior orientation, after one `Update` the yaw is the prior
yaw plus `dx × 0.002`, the pitch is `CLAMP(pitch + dy × 0.002, -0.84, 1.5)` of the prior
pitch, applied once, and `m_mouseDeltaRotation` is `(0, 0)`. -/
theorem Update_consumes_mouse_once (sqrt : K → K) (orient : Ang3 K → Matrix33 K)
    (s : CPlayerComponent K) (frameTime : K) :
    (Update sqrt orient { s with isLocalClient := true, m_rotationSpeed := 2 / 1000 }
        frameTime).m_lookOrientation.x
      = s.m_lookOrientation.x + s.m_mouseDeltaRotation.x * (2 / 1000) ∧
    (Update sqrt orient { s with isLocalClient := true, m_rotationSpeed := 2 / 1000 }
        frameTime).m_lookOrientation.y
      = CLAMP (s.m_lookOrientation.y + s.m_mouseDeltaRotation.y * (2 / 1000))
          (-(84 / 100)) (15 / 10) ∧
    (Update sqrt orient { s with isLocalClient := true, m_rotationSpeed := 2 / 1000 }
        frameTime).m_mouseDeltaRotation = Vec2.ZERO := by
  obtain ⟨h1, h2⟩ := Update_look sqrt orient
    { s with isLocalClient := true, m_rotationSpeed := 2 / 1000 } frameTime
  obtain ⟨g1, g2, g3⟩ := updateLook_local orient s frameTime
  rw [h1, h2]
  exact ⟨g1, g2, g3⟩

end CPlayerComponent

end Q3Movement
